import Mathlib

/-!
# Verification of the AI-Bug-Ticket-Generator backend core

Shallow embedding of the repository's backend proxy logic: the in-memory
rate limiters of the three endpoints, the Jira URL validator, the
client-side ticket field parser, the Jira issue payload builder, the
attachment upload loop, and the API-key startup checks.

JavaScript `Date.now()` timestamps are modelled as `Nat`, the JS `Map` used
by the rate limiters as an association list, and HTTP responses as a
status/message pair.  Regular-expression matching in the field parser is
modelled by explicit character-list matchers that follow the semantics of
the concrete patterns appearing in the source.
-/

namespace BugTicket

/-! ## HTTP responses -/

/-- A JSON error (or success) response, reduced to status code and message. -/
structure HttpResp where
  status : Nat
  error : String
deriving Repr, DecidableEq

/-! ## Rate limiter state

`src/api/push-to-jira.js`, `src/netlify/functions/generate-ticket.cjs` and
`src/server.js` each keep `const rateLimitMap = new Map()` from caller key to
`{ count, resetTime }`. -/

/-- One rate-limit entry: `{ count, resetTime }`. -/
structure RLEntry where
  count : Nat
  resetTime : Nat
deriving Repr, DecidableEq

/-- The in-memory rate-limit map, keyed by caller IP string. -/
abbrev RLMap := List (String × RLEntry)

/-- `rateLimitMap.get(ip)` / `rateLimitMap.has(ip)`. -/
def rlLookup (m : RLMap) (ip : String) : Option RLEntry :=
  match m with
  | [] => none
  | (k, e) :: rest => if k = ip then some e else rlLookup rest ip

/-- `rateLimitMap.set(ip, e)` (replaces the binding if present). -/
def rlSet (m : RLMap) (ip : String) (e : RLEntry) : RLMap :=
  match m with
  | [] => [(ip, e)]
  | (k, e') :: rest => if k = ip then (ip, e) :: rest else (k, e') :: rlSet rest ip e

/-- `const RATE_LIMIT_WINDOW = 60000` (identical in all three files). -/
def RATE_LIMIT_WINDOW : Nat := 60000

/-- The 429 response all three endpoints produce on rate-limit rejection. -/
def tooManyRequests : HttpResp :=
  ⟨429, "Too many requests. Please try again in a minute."⟩

namespace PushToJira

/-- `const MAX_REQUESTS_PER_WINDOW = 10` in `src/api/push-to-jira.js`. -/
def MAX_REQUESTS_PER_WINDOW : Nat := 10

/-- Rate-limit prologue of the Vercel Jira push handler
(`src/api/push-to-jira.js`, lines 27-44).  Returns the updated map and
`some` 429 response when the request is rejected. -/
def rateCheck (m : RLMap) (ip : String) (now : Nat) : RLMap × Option HttpResp :=
  match rlLookup m ip with
  | some limit =>
    if now < limit.resetTime then
      if MAX_REQUESTS_PER_WINDOW ≤ limit.count then (m, some tooManyRequests)
      else (rlSet m ip ⟨limit.count + 1, limit.resetTime⟩, none)
    else (rlSet m ip ⟨1, now + RATE_LIMIT_WINDOW⟩, none)
  | none => (rlSet m ip ⟨1, now + RATE_LIMIT_WINDOW⟩, none)

end PushToJira

namespace GenerateTicket

/-- `const MAX_REQUESTS_PER_WINDOW = 15` in `src/netlify/functions/generate-ticket.cjs`. -/
def MAX_REQUESTS_PER_WINDOW : Nat := 15

/-- Rate-limit prologue of the Netlify ticket-generation handler
(`src/netlify/functions/generate-ticket.cjs`, lines 12-36); code shape is
identical to the Vercel handler but with threshold 15. -/
def rateCheck (m : RLMap) (ip : String) (now : Nat) : RLMap × Option HttpResp :=
  match rlLookup m ip with
  | some limit =>
    if now < limit.resetTime then
      if MAX_REQUESTS_PER_WINDOW ≤ limit.count then (m, some tooManyRequests)
      else (rlSet m ip ⟨limit.count + 1, limit.resetTime⟩, none)
    else (rlSet m ip ⟨1, now + RATE_LIMIT_WINDOW⟩, none)
  | none => (rlSet m ip ⟨1, now + RATE_LIMIT_WINDOW⟩, none)

end GenerateTicket

namespace Server

/-- `const MAX_REQUESTS_PER_WINDOW = 20` in `src/server.js`. -/
def MAX_REQUESTS_PER_WINDOW : Nat := 20

/-- The `rateLimit` Express middleware (`src/server.js`, lines 78-107).
Note the window test is `now > limit.resetTime` (strict), unlike the
serverless handlers which test `now < limit.resetTime`. -/
def rateLimit (m : RLMap) (ip : String) (now : Nat) : RLMap × Option HttpResp :=
  match rlLookup m ip with
  | none => (rlSet m ip ⟨1, now + RATE_LIMIT_WINDOW⟩, none)
  | some limit =>
    if limit.resetTime < now then (rlSet m ip ⟨1, now + RATE_LIMIT_WINDOW⟩, none)
    else if MAX_REQUESTS_PER_WINDOW ≤ limit.count then (m, some tooManyRequests)
    else (rlSet m ip ⟨limit.count + 1, limit.resetTime⟩, none)

end Server

/-- Run a rate-limit step over a sequence of `(caller, time)` requests,
collecting each request's outcome (`none` = allowed through). -/
def rlRun (step : RLMap → String → Nat → RLMap × Option HttpResp) :
    RLMap → List (String × Nat) → RLMap × List (Option HttpResp)
  | m, [] => (m, [])
  | m, (ip, t) :: rs =>
    let p := step m ip t
    let q := rlRun step p.1 rs
    (q.1, p.2 :: q.2)

/-- Abstract in-window behaviour shared by the three rate limiters:
fresh callers get a count-1 entry, callers strictly inside their window are
rejected at the threshold and incremented below it. -/
def InWindowStep (step : RLMap → String → Nat → RLMap × Option HttpResp)
    (maxReq : Nat) : Prop :=
  (∀ m ip now, rlLookup m ip = none →
      step m ip now = (rlSet m ip ⟨1, now + RATE_LIMIT_WINDOW⟩, none)) ∧
  (∀ m ip now c r, rlLookup m ip = some ⟨c, r⟩ → now < r → maxReq ≤ c →
      step m ip now = (m, some tooManyRequests)) ∧
  (∀ m ip now c r, rlLookup m ip = some ⟨c, r⟩ → now < r → c < maxReq →
      step m ip now = (rlSet m ip ⟨c + 1, r⟩, none))

/-- Invariant for claim C8: every stored count is at most the window maximum. -/
def AllCountsLe (m : RLMap) (maxReq : Nat) : Prop :=
  ∀ p ∈ m, (Prod.snd p).count ≤ maxReq

/-! ## URL model and the Jira URL validator

Both `src/api/push-to-jira.js` (lines 12-25) and `src/server.js`
(lines 32-47) define the same `validateJiraUrl`, built on the platform's
WHATWG `new URL(...)` constructor. -/

/-- Character allowed inside a URL scheme after the first letter. -/
def isSchemeChar (c : Char) : Bool :=
  c.isAlpha || c.isDigit || c = '+' || c = '-' || c = '.'

/-- ASCII lower-casing, as performed by the URL host parser. -/
def lowerChar (c : Char) : Char :=
  if 'A' ≤ c ∧ c ≤ 'Z' then Char.ofNat (c.toNat + 32) else c

/-- Split `scheme ":" rest`, requiring every scheme character to be legal. -/
def takeScheme : List Char → Option (List Char × List Char)
  | [] => none
  | c :: cs =>
    if c = ':' then some ([], cs)
    else if isSchemeChar c then
      match takeScheme cs with
      | some (sch, rest) => some (c :: sch, rest)
      | none => none
    else none

/-- The two `URL` properties the validator reads. -/
structure ParsedURL where
  protocol : String
  hostname : String
deriving Repr, DecidableEq

/-- Character terminating the authority component. -/
def hostStopChar (c : Char) : Bool := c = '/' || c = '?' || c = '#'

/-- Drop user-info: everything up to and including the last `@`. -/
def afterAt : List Char → List Char
  | [] => []
  | c :: cs => if c = '@' ∨ ('@' : Char) ∈ cs then afterAt cs else c :: cs

/-- Host portion of what follows the scheme: skip any run of slashes, stop
the authority at `/`, `?` or `#`, drop user-info up to the last `@`, and
drop a `:port`. -/
def hostOf (rest : List Char) : List Char :=
  (afterAt ((rest.dropWhile (fun c => c = '/')).takeWhile
    (fun c => !hostStopChar c))).takeWhile (fun c => !(c = ':'))

/-- Authority parsing for the special schemes `http`/`https`: an empty host
makes the constructor throw (`none`); the host is ASCII lower-cased. -/
def parseAuthority (schemeL rest : List Char) : Option ParsedURL :=
  if hostOf rest = [] then none
  else some ⟨String.mk (schemeL ++ [':']), String.mk ((hostOf rest).map lowerChar)⟩

/-- Modelled platform behaviour: the WHATWG `URL` constructor used by
`validateJiraUrl`, restricted to the `protocol` and `hostname` extraction
the validator reads.  A scheme is a letter followed by scheme characters
and a colon; for the special schemes `http`/`https` the authority follows
any run of slashes; other schemes parse with an empty `hostname` (opaque
path).  `none` models the constructor throwing. -/
def parseURL (s : String) : Option ParsedURL :=
  match takeScheme s.toList with
  | none => none
  | some (sch, rest) =>
    match sch with
    | [] => none
    | c0 :: _ =>
      if c0.isAlpha then
        if sch.map lowerChar = ['h', 't', 't', 'p', 's']
            ∨ sch.map lowerChar = ['h', 't', 't', 'p'] then
          parseAuthority (sch.map lowerChar) rest
        else some ⟨String.mk (sch.map lowerChar ++ [':']), ""⟩
      else none

/-- `pat.isPrefixOf s` as a Bool, written out for easy induction. -/
def beginsWith : List Char → List Char → Bool
  | [], _ => true
  | _ :: _, [] => false
  | c :: cs, d :: ds => c = d && beginsWith cs ds

/-- JavaScript `s.endsWith(sfx)`. -/
def endsWithStr (s sfx : String) : Bool :=
  beginsWith sfx.toList.reverse s.toList.reverse

/-- The `{ valid, error }` object returned by `validateJiraUrl`. -/
structure ValidationResult where
  valid : Bool
  error : Option String
deriving Repr, DecidableEq

/-- `validateJiraUrl` (identical in `src/api/push-to-jira.js` lines 12-25
and `src/server.js` lines 32-47): HTTPS only, and only hosts ending in
`.atlassian.net`. -/
def validateJiraUrl (url : String) : ValidationResult :=
  match parseURL url with
  | none => ⟨false, some "Invalid Jira URL format"⟩
  | some u =>
    if ¬(u.protocol = "https:") then ⟨false, some "Jira URL must use HTTPS"⟩
    else if ¬(endsWithStr u.hostname ".atlassian.net" = true) then
      ⟨false, some "Only Atlassian-hosted Jira instances are allowed"⟩
    else ⟨true, none⟩

/-- Characters we allow in the subdomain label of claim C10's universally
quantified accepted URL: ASCII lower-case letters, digits, hyphen. -/
def subdomainChar (c : Char) : Bool :=
  ('a' ≤ c && c ≤ 'z') || ('0' ≤ c && c ≤ '9') || c = '-'

/-! ## Ticket field parser (client side)

`parseTicketForJira` (`src/src/components/FormattedTicket.jsx`, lines
1208-1316) extracts the ticket fields from the generated text with a fixed
set of regular expressions.  Each pattern is modelled by an explicit
matcher on character lists; `scan` models regex search (leftmost starting
position wins). -/

/-- JavaScript regex `\s` for the ASCII characters occurring here. -/
def isWs (c : Char) : Bool :=
  c = ' ' || c = '\t' || c = '\n' || c = '\r' || c = '\x0b' || c = '\x0c'

/-- Regex word character, for `\b` boundaries. -/
def isWordChar (c : Char) : Bool := c.isAlpha || c.isDigit || c = '_'

/-- `\b` after a match: the next character (if any) is not a word character. -/
def boundaryOk : List Char → Bool
  | [] => true
  | c :: _ => !isWordChar c

/-- Match the literal `lit` at the head of the input, returning the rest. -/
def dropLit? : List Char → List Char → Option (List Char)
  | [], s => some s
  | _ :: _, [] => none
  | c :: cs, d :: ds => if c = d then dropLit? cs ds else none

/-- Case-insensitive literal match (for the `/i` patterns). -/
def dropLitCI? : List Char → List Char → Option (List Char)
  | [], s => some s
  | _ :: _, [] => none
  | c :: cs, d :: ds => if lowerChar c = lowerChar d then dropLitCI? cs ds else none

/-- A matcher consuming the literal `lit`, then continuing with `g`. -/
def litThen (lit : List Char) (g : List Char → Option α) (s : List Char) :
    Option α :=
  match dropLit? lit s with
  | none => none
  | some rest => g rest

/-- Case-insensitive variant of `litThen`. -/
def litThenCI (lit : List Char) (g : List Char → Option α) (s : List Char) :
    Option α :=
  match dropLitCI? lit s with
  | none => none
  | some rest => g rest

/-- Regex search: try the matcher at every start position, leftmost first. -/
def scan (f : List Char → Option α) : List Char → Option α
  | [] => f []
  | c :: cs =>
    match f (c :: cs) with
    | some r => some r
    | none => scan f cs

/-- After a section label, `\s*\n` consumes the whitespace run up to and
including its last newline (greedy `\s*` backtracking until the mandatory
`\n` matches); it fails when the run contains no newline. -/
def afterLastNlInWs : List Char → Option (List Char)
  | [] => none
  | c :: cs =>
    if isWs c then
      match afterLastNlInWs cs with
      | some r => some r
      | none => if c = '\n' then some cs else none
    else none

/-- Lazy `([\s\S]*?)` terminated by `(?:\n━|$)`: everything up to the
first `"\n━"`, or the whole remainder when there is none (`$` = end of
input, the patterns are not multiline). -/
def takeUntilSep : List Char → List Char
  | [] => []
  | c :: cs =>
    if c = '\n' ∧ cs.head? = some '━' then []
    else c :: takeUntilSep cs

/-- JavaScript `String.prototype.trim` on a character list. -/
def trimWs (l : List Char) : List Char :=
  ((l.dropWhile isWs).reverse.dropWhile isWs).reverse

/-- Matcher for `\*\*L:\*\*\s*\n([\s\S]*?)(?:\n━|$)` at one position
(the shared shape of the six body-section regexes). -/
def sectionAt (lit : List Char) : List Char → Option (List Char) :=
  litThen lit (fun rest =>
    match afterLastNlInWs rest with
    | none => none
    | some r => some (takeUntilSep r))

/-- One body-section extraction: `ticketContent.match(...)` followed by
`match ? match[1].trim() : ''`. -/
def extractSection (label : String) (content : String) : String :=
  match scan (sectionAt ("**" ++ label ++ ":**").toList) content.toList with
  | some g => String.mk (trimWs g)
  | none => ""

/-- Backtracking of `\s*` inside a pure-whitespace tail for the title
pattern: `\s*` gives characters back until `.` can match (a non-newline
character), then `(.+?)` lazily extends to the next newline or the end;
the later the restart position, the more `\s*` keeps (greedy). -/
def titleInWs : List Char → Option (List Char)
  | [] => none
  | c :: cs =>
    match titleInWs cs with
    | some g => some g
    | none =>
      if ¬(c = '\n') then some ((c :: cs).takeWhile (fun d => !(d = '\n')))
      else none

/-- Matcher for `\*\*Title:\*\*\s*(.+?)(?:\n|$)` at one position. -/
def titleAt : List Char → Option (List Char) :=
  litThen "**Title:**".toList (fun rest =>
    if rest.dropWhile isWs = [] then titleInWs (rest.takeWhile isWs)
    else some ((rest.dropWhile isWs).takeWhile (fun d => !(d = '\n'))))

/-- `([Pp][1-4])\b`, returning the digit of the matched code (the code the
JavaScript recovers is the group, upper-cased, i.e. `P` + this digit). -/
def codeAt : List Char → Option Char
  | c :: d :: rest =>
    if (c = 'P' ∨ c = 'p') ∧ (d = '1' ∨ d = '2' ∨ d = '3' ∨ d = '4')
        ∧ boundaryOk rest = true then some d
    else none
  | _ => none

/-- Pattern 1: `\*\*Priority:\*\*\s*([Pp][1-4])\b`. -/
def prio1At : List Char → Option Char :=
  litThen "**Priority:**".toList (fun rest => codeAt (rest.dropWhile isWs))

/-- Pattern 2: `/Priority:\s*([Pp][1-4])\b/i`. -/
def prio2At : List Char → Option Char :=
  litThenCI "Priority:".toList (fun rest => codeAt (rest.dropWhile isWs))

/-- Pattern 3: `/Priority\s+([Pp][1-4])\b/i`. -/
def prio3At : List Char → Option Char :=
  litThenCI "Priority".toList (fun rest =>
    match rest with
    | [] => none
    | c :: _ => if isWs c then codeAt (rest.dropWhile isWs) else none)

/-- Pattern 4: `/Priority[:\s\*]*\s*([Pp][1-4])\b/i`. -/
def prio4At : List Char → Option Char :=
  litThenCI "Priority".toList (fun rest =>
    codeAt (rest.dropWhile (fun c => c = ':' || isWs c || c = '*')))

/-- Pattern 5 first matches `/\*\*Priority:\*\*[\s\S]{0,30}/i`; the code is
then searched with `/([Pp][1-4])\b/` inside the (≤ 30 character) window
after the label (the label itself cannot contain a code). -/
def prio5Window : List Char → Option (List Char) :=
  litThenCI "**Priority:**".toList (fun rest => some (rest.take 30))

/-- The priority fallback chain of `parseTicketForJira` (patterns 1-5);
`none` means no recognizable priority signal. -/
def extractPriorityDigit (content : List Char) : Option Char :=
  match scan prio1At content with
  | some d => some d
  | none =>
    match scan prio2At content with
    | some d => some d
    | none =>
      match scan prio3At content with
      | some d => some d
      | none =>
        match scan prio4At content with
        | some d => some d
        | none =>
          match scan prio5Window content with
          | some w => scan codeAt w
          | none => none

/-- The `fields` object built by `parseTicketForJira`. -/
structure TicketFields where
  title : String
  description : String
  steps : String
  expected : String
  actual : String
  impact : String
  priorityId : String
  priorityName : String
  environment : String
deriving Repr, DecidableEq

/-- `priorityIdMap` (`FormattedTicket.jsx` lines 1286-1291):
P1 Highest, P2 High, P3 Medium, P4 Low. -/
def priorityIdMap (p : String) : Option String :=
  if p = "P1" then some "1"
  else if p = "P2" then some "2"
  else if p = "P3" then some "3"
  else if p = "P4" then some "4"
  else none

/-- `parseTicketForJira` (`FormattedTicket.jsx` lines 1208-1316).  A found
priority group is `[Pp][1-4]`, so after `.trim().toUpperCase()` it is `P`
followed by the digit; the subsequent `/^P[1-4]$/` re-test and the final
`typeof` guard therefore never fire on a found code, and the default is
`P3`.  `priorityId` is `priorityIdMap[priorityText] || '3'`. -/
def parseTicketForJira (ticketContent : String) : TicketFields :=
  let content := ticketContent.toList
  let title :=
    match scan titleAt content with
    | some g => String.mk (trimWs g)
    | none => "Bug Report"
  let priorityText :=
    match extractPriorityDigit content with
    | some d => String.mk ['P', d]
    | none => "P3"
  { title := title
    description := extractSection "Description" ticketContent
    steps := extractSection "Steps to Reproduce" ticketContent
    expected := extractSection "Expected Behaviour" ticketContent
    actual := extractSection "Actual Behaviour" ticketContent
    impact := extractSection "Impact" ticketContent
    priorityId := (priorityIdMap priorityText).getD "3"
    priorityName := priorityText
    environment := extractSection "Environment" ticketContent }

/-! ### Well-formed generated blobs (for claim C3) -/

/-- The 52-character horizontal rule the generation prompt requests after
each section. -/
def sepChars : List Char := List.replicate 52 '━'

/-- Blank line, separator rule, blank line: the text between a section body
and the next label in the requested format. -/
def wfMidL : List Char := '\n' :: '\n' :: (sepChars ++ ['\n', '\n'])

/-- A well-formed generated ticket blob in the exact format the prompt
requests: bolded labels, the title and priority on the label line, bodies
on the following lines, sections separated by the horizontal rule. -/
def wfBlob (t d st e a i p v : String) : String :=
  "**Title:**" ++ " " ++ t ++ String.mk wfMidL
  ++ "**Description:**" ++ "\n" ++ d ++ String.mk wfMidL
  ++ "**Steps to Reproduce:**" ++ "\n" ++ st ++ String.mk wfMidL
  ++ "**Expected Behaviour:**" ++ "\n" ++ e ++ String.mk wfMidL
  ++ "**Actual Behaviour:**" ++ "\n" ++ a ++ String.mk wfMidL
  ++ "**Impact:**" ++ "\n" ++ i ++ String.mk wfMidL
  ++ "**Priority:**" ++ " " ++ p ++ String.mk wfMidL
  ++ "**Environment:**" ++ "\n" ++ v

/-- A well-formed section body: nonempty, no leading or trailing
whitespace (so `trim` is the identity on it), and free of the markup
characters `*` and `━`. -/
def WFBody (s : String) : Prop :=
  (∃ c cs, s.toList = c :: cs ∧ isWs c = false)
  ∧ (∃ c cs, s.toList.reverse = c :: cs ∧ isWs c = false)
  ∧ ∀ c ∈ s.toList, ¬(c = '*') ∧ ¬(c = '━')

/-- A well-formed title: a well-formed body on a single line. -/
def WFTitle (s : String) : Prop :=
  WFBody s ∧ ∀ c ∈ s.toList, ¬(c = '\n')

/-- Result of matching a literal against a text fragment: a clash inside
the fragment, a full occurrence of the literal inside it, or the fragment
exhausted with a leftover of the literal still to match. -/
inductive LitScanRes where
  | clash : LitScanRes
  | inside : LitScanRes
  | leftover : List Char → LitScanRes
deriving Repr, DecidableEq

/-- Match a literal against a fragment, classifying the outcome. -/
def mm : List Char → List Char → LitScanRes
  | l, [] => .leftover l
  | [], _ :: _ => .inside
  | c :: cs, d :: ds => if c = d then mm cs ds else .clash

/-- Decidable check that the literal `lit` cannot match starting inside
the fragment `L` when `L` is followed by the character `next`: every
starting offset either clashes inside `L`, or runs past `L` needing a
character other than `next`. -/
def labelClear (lit L : List Char) (next : Char) : Bool :=
  (List.range L.length).all fun i =>
    match mm lit (L.drop i) with
    | .clash => true
    | .inside => false
    | .leftover [] => false
    | .leftover (c :: _) => !(c = next)

/-- `lit` fails to match at every start position inside `u` (with `v` the
text following `u`). -/
def CleanLit (lit u v : List Char) : Prop :=
  ∀ i < u.length, dropLit? lit (u.drop i ++ v) = none

/-! ## Jira payload builder (server side)

`src/api/push-to-jira.js` lines 93-219 (and the identical code in
`src/server.js` lines 317-444): request shaping for the issue-creation
call. -/

/-- The custom-field value shapes the builder emits. -/
inductive CustomFieldVal where
  | valueOnly (value : String)
  | nameOnly (name : String)
  | idValue (id : String) (value : String)
deriving Repr, DecidableEq

/-- The `fields` object of the request body.  A JS `undefined` member is
`none`; the empty string is falsy as well. -/
structure ReqFields where
  title : String
  description : String
  steps : String
  expected : String
  actual : String
  impact : String
  environment : String
  priorityId : Option String
  priorityName : Option String
deriving Repr, DecidableEq

/-- The `customFields` object of the request body (`instance` is renamed
`instanceField`, it is a keyword here). -/
structure CustomFields where
  instanceField : Option String
  productLine : Option String
  component : Option String
  foundVersion : Option String
  engineeringTeam : Option String
deriving Repr, DecidableEq

/-- JS truthiness of an optional string: `undefined` and `""` are falsy. -/
def truthy : Option String → Option String
  | none => none
  | some s => if s = "" then none else some s

/-- `o || dflt` for an optional string (lines 158-159). -/
def falsyOr (o : Option String) (dflt : String) : String :=
  match o with
  | none => dflt
  | some s => if s = "" then dflt else s

/-- One option of the `customfield_11737` metadata (`allowedValues`
entry); missing JSON members are `none`. -/
structure TeamOption where
  id : Option String
  value : Option String
  name : Option String
deriving Repr, DecidableEq

/-- Environment of the create-metadata fetch inside
`getEngineeringTeamId`: `failure` is a thrown/caught network error or a
non-ok response; on success, `none` models any break in the navigation
path `projects[0].issuetypes[0].fields.customfield_11737.allowedValues`. -/
inductive MetaFetch where
  | failure : MetaFetch
  | success : Option (List TeamOption) → MetaFetch
deriving Repr, DecidableEq

/-- `getEngineeringTeamId` (lines 93-126): best-effort resolution of the
team value to its option id; every failure path returns `null`. -/
def getEngineeringTeamId (fetch : MetaFetch) (teamValue : String) :
    Option String :=
  match fetch with
  | .failure => none
  | .success none => none
  | .success (some opts) =>
    match opts.find? (fun o =>
        o.value == some teamValue || o.name == some teamValue) with
    | none => none
    | some o =>
      match o.id with
      | none => none
      | some i => if i = "" then none else some i

/-- The Engineering Team block (lines 195-218): trims the value, resolves
the id best-effort, and falls back to `{ value }` alone (logging the
warning the second component reports). -/
def engineeringTeamField (fetch : MetaFetch) (engineeringTeam : Option String) :
    Option CustomFieldVal × Bool :=
  match truthy engineeringTeam with
  | none => (none, false)
  | some s =>
    let tv := String.mk (trimWs s.toList)
    if tv = "" then (none, false)
    else
      match getEngineeringTeamId fetch tv with
      | some id => (some (.idValue id tv), false)
      | none => (some (.valueOnly tv), true)

/-- `jiraDescription` (lines 129-134). -/
def jiraDescription (f : ReqFields) : String :=
  "*Description:*\n" ++ f.description ++ "\n\n"
  ++ "*Steps to Reproduce:*\n" ++ f.steps ++ "\n\n"
  ++ "*Expected Behaviour:*\n" ++ f.expected ++ "\n\n"
  ++ "*Actual Behaviour:*\n" ++ f.actual ++ "\n\n"
  ++ "*Impact:*\n" ++ f.impact ++ "\n\n"
  ++ "*Environment:*\n" ++ f.environment

/-- The `{ id, name }` priority object of the payload. -/
structure JiraPriorityObj where
  id : String
  name : String
deriving Repr, DecidableEq

/-- The `fields` member of the issue-creation payload. -/
structure JiraPayloadFields where
  projectKey : String
  summary : String
  description : String
  issuetypeName : String
  priority : JiraPriorityObj
  customfield_11888 : Option CustomFieldVal
  customfield_11924 : Option CustomFieldVal
  components : Option (List CustomFieldVal)
  customfield_11744 : Option CustomFieldVal
  customfield_11737 : Option CustomFieldVal
deriving Repr, DecidableEq

/-- The `jiraPayload` construction (lines 136-219): base fields, the
always-set priority object with its `'3'`/`'P3'` fallbacks, and the
optional custom fields.  The second component reports whether the
team-id-not-found warning was logged. -/
def buildJiraPayload (fetch : MetaFetch) (projectKey : String)
    (f : ReqFields) (cf : Option CustomFields) : JiraPayloadFields × Bool :=
  let base : JiraPayloadFields :=
    { projectKey := projectKey
      summary := f.title
      description := jiraDescription f
      issuetypeName := "Bug"
      priority := ⟨falsyOr f.priorityId "3", falsyOr f.priorityName "P3"⟩
      customfield_11888 := none
      customfield_11924 := none
      components := none
      customfield_11744 := none
      customfield_11737 := none }
  match cf with
  | none => (base, false)
  | some c =>
    let et := engineeringTeamField fetch c.engineeringTeam
    ({ base with
        customfield_11888 := (truthy c.instanceField).map .valueOnly
        customfield_11924 := (truthy c.productLine).map .valueOnly
        components := (truthy c.component).map (fun x => [.nameOnly x])
        customfield_11744 := (truthy c.foundVersion).map .nameOnly
        customfield_11737 := et.1 }, et.2)

/-- The `fields` object the client sends: `parseTicketForJira`'s result
(both priority members always present). -/
def toReq (tf : TicketFields) : ReqFields :=
  { title := tf.title
    description := tf.description
    steps := tf.steps
    expected := tf.expected
    actual := tf.actual
    impact := tf.impact
    environment := tf.environment
    priorityId := some tf.priorityId
    priorityName := some tf.priorityName }

/-! ## Attachment upload loop and responses -/

/-- Environment of one attachment upload: the response was ok, the
response failed with a status, or building/sending threw (caught by the
per-file `catch`). -/
inductive UploadResult where
  | ok : UploadResult
  | httpFail : Nat → UploadResult
  | exn : UploadResult
deriving Repr, DecidableEq

/-- The 413 response of the upload loop (lines 311-315). -/
def uploadTooLarge : HttpResp :=
  ⟨413, "One or more files are too large for Jira. Please remove large files and try again."⟩

/-- The sequential upload loop (lines 278-321): returns the attempts
actually made, in order, and `some` early 413 response if one occurred.
An ok upload, a non-413 failure (logged) and a thrown error (caught) all
continue with the next file; a 413 returns immediately. -/
def runUploads : List UploadResult → List UploadResult × Option HttpResp
  | [] => ([], none)
  | .ok :: rest =>
    let q := runUploads rest
    (.ok :: q.1, q.2)
  | .exn :: rest =>
    let q := runUploads rest
    (.exn :: q.1, q.2)
  | .httpFail s :: rest =>
    if s = 413 then ([.httpFail s], some uploadTooLarge)
    else
      let q := runUploads rest
      (.httpFail s :: q.1, q.2)

/-- The handler's response variants after the issue was created. -/
inductive PushResponse where
  | success : String → PushResponse
  | errorResp : HttpResp → PushResponse
deriving Repr, DecidableEq

/-- Tail of the push handler after a successful issue creation
(lines 267-335): run the uploads; an early 413 is returned to the caller,
otherwise the 200 response with the created issue key. -/
def handlerAfterCreate (key : String) (uploads : List UploadResult) :
    PushResponse :=
  match (runUploads uploads).2 with
  | some r => .errorResp r
  | none => .success key

/-- The client's status-specific messages in `pushToJira`
(`FormattedTicket.jsx` lines 1444-1460); other statuses fall through to
error-body parsing whose initial default is the generic message. -/
def clientJiraErrorMessage (status : Nat) : String :=
  if status = 413 then
    "📦 One or more files you uploaded are too large for Jira. Please remove large files (click Clear All or individual X buttons) and then push the ticket again."
  else if status = 401 then
    "🔐 Authentication failed. Please check your Jira Email and API Token in settings."
  else if status = 403 then
    "🚫 Permission denied. Your Jira account may not have permission to create tickets in this project."
  else if status = 404 then
    "🔍 Project not found. Please verify your Jira URL and Project Key in settings."
  else "Failed to create Jira ticket"

/-! ## API key checks at startup / per request -/

/-- Outcome of `node server.js` start-up. -/
inductive ServerStartup where
  | fatal : ServerStartup
  | running : String → ServerStartup
deriving Repr, DecidableEq

/-- `src/server.js` lines 14-20: a missing (or empty, JS falsiness)
`ANTHROPIC_API_KEY` makes the process exit with code 1 before the server
is created; otherwise the server starts and serves with that key. -/
def serverStartup (key : Option String) : ServerStartup :=
  match key with
  | none => .fatal
  | some k => if k = "" then .fatal else .running k

/-- The Netlify function's per-request key check
(`src/netlify/functions/generate-ticket.cjs` lines 49-58). -/
def netlifyKeyCheck (key : Option String) : Option HttpResp :=
  match key with
  | none => some ⟨500, "Server configuration error: API key not set"⟩
  | some k =>
    if k = "" then some ⟨500, "Server configuration error: API key not set"⟩
    else none

/-- A request produced an HTTP response, or the handler proceeds to the
upstream LLM call. -/
inductive NetlifyOutcome where
  | response : HttpResp → NetlifyOutcome
  | proceeds : NetlifyOutcome
deriving Repr, DecidableEq

/-- The prefix of the Netlify `generate-ticket` handler relevant to C9:
rate limiting first, then the API-key check; only then does the handler
proceed towards the upstream call. -/
def generateTicketHandler (key : Option String) (m : RLMap) (ip : String)
    (now : Nat) : RLMap × NetlifyOutcome :=
  let q := GenerateTicket.rateCheck m ip now
  match q.2 with
  | some r => (q.1, .response r)
  | none =>
    match netlifyKeyCheck key with
    | some r => (q.1, .response r)
    | none => (q.1, .proceeds)

/-! ### DEFINITIONS CONTINUE BELOW; THEOREMS START AFTER THE LAST DEFINITION -/

/-! ## Basic lemmas about the rate-limit map -/

theorem rlLookup_rlSet_self (m : RLMap) (ip : String) (e : RLEntry) :
    rlLookup (rlSet m ip e) ip = some e := by
  induction m with
  | nil => simp [rlSet, rlLookup]
  | cons p rest ih =>
    obtain ⟨k, e'⟩ := p
    by_cases h : k = ip
    · simp [rlSet, rlLookup, h]
    · simp [rlSet, rlLookup, h, ih]

theorem rlLookup_rlSet_ne (m : RLMap) (ip k : String) (e : RLEntry) (h : k ≠ ip) :
    rlLookup (rlSet m ip e) k = rlLookup m k := by
  induction m with
  | nil => simp [rlSet, rlLookup, Ne.symm h]
  | cons p rest ih =>
    obtain ⟨k', e'⟩ := p
    by_cases h' : k' = ip
    · subst h'
      simp [rlSet, rlLookup, Ne.symm h]
    · simp [rlSet, rlLookup, h', ih]

theorem mem_rlSet (m : RLMap) (ip : String) (e : RLEntry) (p : String × RLEntry) :
    p ∈ rlSet m ip e → p = (ip, e) ∨ p ∈ m := by
  induction m with
  | nil => intro h; simpa [rlSet] using h
  | cons q rest ih =>
    intro h
    obtain ⟨k, e'⟩ := q
    by_cases hk : k = ip
    · simp only [rlSet, if_pos hk] at h
      rcases List.mem_cons.mp h with h1 | h1
      · exact Or.inl h1
      · exact Or.inr (List.mem_cons_of_mem _ h1)
    · simp only [rlSet, if_neg hk] at h
      rcases List.mem_cons.mp h with h1 | h1
      · exact Or.inr (by simp [h1])
      · rcases ih h1 with h2 | h2
        · exact Or.inl h2
        · exact Or.inr (List.mem_cons_of_mem _ h2)

/-! ## The three endpoints satisfy the abstract in-window behaviour -/

theorem pushToJira_inWindowStep :
    InWindowStep PushToJira.rateCheck PushToJira.MAX_REQUESTS_PER_WINDOW := by
  refine ⟨?_, ?_, ?_⟩
  · intro m ip now h
    simp [PushToJira.rateCheck, h]
  · intro m ip now c r h hlt hge
    simp [PushToJira.rateCheck, h, hlt, hge]
  · intro m ip now c r h hlt hlt'
    simp [PushToJira.rateCheck, h, hlt, Nat.not_le_of_lt hlt']

theorem generateTicket_inWindowStep :
    InWindowStep GenerateTicket.rateCheck GenerateTicket.MAX_REQUESTS_PER_WINDOW := by
  refine ⟨?_, ?_, ?_⟩
  · intro m ip now h
    simp [GenerateTicket.rateCheck, h]
  · intro m ip now c r h hlt hge
    simp [GenerateTicket.rateCheck, h, hlt, hge]
  · intro m ip now c r h hlt hlt'
    simp [GenerateTicket.rateCheck, h, hlt, Nat.not_le_of_lt hlt']

theorem server_inWindowStep :
    InWindowStep Server.rateLimit Server.MAX_REQUESTS_PER_WINDOW := by
  refine ⟨?_, ?_, ?_⟩
  · intro m ip now h
    simp [Server.rateLimit, h]
  · intro m ip now c r h hlt hge
    simp [Server.rateLimit, h, Nat.not_lt_of_lt hlt, hge]
  · intro m ip now c r h hlt hlt'
    simp [Server.rateLimit, h, Nat.not_lt_of_lt hlt, Nat.not_le_of_lt hlt']

/-! ## In-window run lemma -/

theorem rlRun_inWindow {step : RLMap → String → Nat → RLMap × Option HttpResp}
    {maxReq : Nat} (hs : InWindowStep step maxReq)
    (ip : String) (r : Nat) :
    ∀ (ts : List Nat) (m : RLMap) (c : Nat),
      rlLookup m ip = some ⟨c, r⟩ → c ≤ maxReq → (∀ t ∈ ts, t < r) →
      (rlRun step m (ts.map (fun t => (ip, t)))).2
          = (List.range ts.length).map
              (fun i => if c + i < maxReq then none else some tooManyRequests)
        ∧ rlLookup (rlRun step m (ts.map (fun t => (ip, t)))).1 ip
          = some ⟨min (c + ts.length) maxReq, r⟩ := by
  intro ts
  induction ts with
  | nil =>
    intro m c hm hc _
    refine ⟨by simp [rlRun], ?_⟩
    simpa [rlRun, Nat.min_eq_left hc] using hm
  | cons t ts ih =>
    intro m c hm hc ht
    have htw : t < r := ht t (by simp)
    by_cases hlt : c < maxReq
    · have hstep := hs.2.2 m ip t c r hm htw hlt
      have hm' : rlLookup (rlSet m ip ⟨c + 1, r⟩) ip = some ⟨c + 1, r⟩ :=
        rlLookup_rlSet_self m ip _
      have hrest := ih (rlSet m ip ⟨c + 1, r⟩) (c + 1) hm' (by omega)
        (fun t' ht' => ht t' (by simp [ht']))
      constructor
      · simp only [List.map_cons, rlRun, hstep]
        rw [hrest.1]
        rw [List.length_cons, List.range_succ_eq_map]
        simp only [List.map_cons, List.map_map]
        congr 1
        · simp [hlt]
        · apply List.map_congr_left
          intro i _
          simp only [Function.comp]
          have h1 : c + 1 + i = c + (i + 1) := by omega
          rw [h1]
      · simp only [List.map_cons, rlRun, hstep]
        rw [hrest.2]
        have h2 : (c + 1 + ts.length) ⊓ maxReq = (c + (t :: ts).length) ⊓ maxReq := by
          simp only [List.length_cons]
          omega
        rw [h2]
    · have hceq : c = maxReq := by omega
      have hstep := hs.2.1 m ip t c r hm htw (by omega)
      have hrest := ih m c hm hc (fun t' ht' => ht t' (by simp [ht']))
      constructor
      · simp only [List.map_cons, rlRun, hstep]
        rw [hrest.1]
        rw [List.length_cons, List.range_succ_eq_map]
        simp only [List.map_cons, List.map_map]
        congr 1
        · simp [hlt]
        · apply List.map_congr_left
          intro i _
          simp only [Function.comp]
          have h1 : ¬ c + (i + 1) < maxReq := by omega
          have h2 : ¬ c + i < maxReq := by omega
          simp [h1, h2]
      · simp only [List.map_cons, rlRun, hstep]
        rw [hrest.2]
        have h2 : (c + ts.length) ⊓ maxReq = (c + (t :: ts).length) ⊓ maxReq := by
          simp only [List.length_cons]
          omega
        rw [h2]

/-- A fresh caller's run of requests inside one window: outcome of the
`(n+1)`-st request is the 429 rejection exactly when `n + 1` exceeds the
threshold, and the stored count after the run is `min` of the number of
requests and the threshold. -/
theorem rlRun_fresh_window {step : RLMap → String → Nat → RLMap × Option HttpResp}
    {maxReq : Nat} (hs : InWindowStep step maxReq) (hmax : 1 ≤ maxReq)
    (ip : String) (t0 : Nat) (ts : List Nat)
    (h : ∀ t ∈ ts, t < t0 + RATE_LIMIT_WINDOW) :
    (rlRun step [] ((t0 :: ts).map (fun t => (ip, t)))).2
        = (List.range (ts.length + 1)).map
            (fun n => if n + 1 ≤ maxReq then none else some tooManyRequests)
      ∧ rlLookup (rlRun step [] ((t0 :: ts).map (fun t => (ip, t)))).1 ip
        = some ⟨min (ts.length + 1) maxReq, t0 + RATE_LIMIT_WINDOW⟩ := by
  have hstep := hs.1 [] ip t0 rfl
  have hm1 : rlLookup (rlSet [] ip ⟨1, t0 + RATE_LIMIT_WINDOW⟩) ip
      = some ⟨1, t0 + RATE_LIMIT_WINDOW⟩ := rlLookup_rlSet_self _ _ _
  have hmain := rlRun_inWindow hs ip (t0 + RATE_LIMIT_WINDOW) ts
    (rlSet [] ip ⟨1, t0 + RATE_LIMIT_WINDOW⟩) 1 hm1 hmax h
  constructor
  · simp only [List.map_cons, rlRun, hstep]
    rw [hmain.1, List.range_succ_eq_map]
    simp only [List.map_cons, List.map_map]
    congr 1
    · simp [hmax]
    · apply List.map_congr_left
      intro i _
      simp only [Function.comp]
      exact if_congr (by omega) rfl rfl
  · simp only [List.map_cons, rlRun, hstep]
    rw [hmain.2]
    have h2 : (1 + ts.length) ⊓ maxReq = (ts.length + 1) ⊓ maxReq := by omega
    rw [h2]

/-- **C1**: for every caller key, within one rate window the `N`-th request
from that caller is rejected with the 429 "too many requests" response iff
`N` exceeds the endpoint's threshold (10 for the Vercel Jira push proxy, 15
for the Netlify ticket-generation proxy, 20 for the local Express server);
requests up to the threshold pass and leave the stored count at `N`. -/
theorem rate_limiter_threshold_c1 (ip : String) (t0 : Nat) (ts : List Nat)
    (h : ∀ t ∈ ts, t < t0 + RATE_LIMIT_WINDOW) :
    ((rlRun PushToJira.rateCheck [] ((t0 :: ts).map (fun t => (ip, t)))).2
        = (List.range (ts.length + 1)).map
            (fun n => if n + 1 ≤ PushToJira.MAX_REQUESTS_PER_WINDOW then none
                      else some tooManyRequests)
      ∧ rlLookup (rlRun PushToJira.rateCheck [] ((t0 :: ts).map (fun t => (ip, t)))).1 ip
        = some ⟨min (ts.length + 1) PushToJira.MAX_REQUESTS_PER_WINDOW,
                t0 + RATE_LIMIT_WINDOW⟩)
    ∧ ((rlRun GenerateTicket.rateCheck [] ((t0 :: ts).map (fun t => (ip, t)))).2
        = (List.range (ts.length + 1)).map
            (fun n => if n + 1 ≤ GenerateTicket.MAX_REQUESTS_PER_WINDOW then none
                      else some tooManyRequests)
      ∧ rlLookup (rlRun GenerateTicket.rateCheck [] ((t0 :: ts).map (fun t => (ip, t)))).1 ip
        = some ⟨min (ts.length + 1) GenerateTicket.MAX_REQUESTS_PER_WINDOW,
                t0 + RATE_LIMIT_WINDOW⟩)
    ∧ ((rlRun Server.rateLimit [] ((t0 :: ts).map (fun t => (ip, t)))).2
        = (List.range (ts.length + 1)).map
            (fun n => if n + 1 ≤ Server.MAX_REQUESTS_PER_WINDOW then none
                      else some tooManyRequests)
      ∧ rlLookup (rlRun Server.rateLimit [] ((t0 :: ts).map (fun t => (ip, t)))).1 ip
        = some ⟨min (ts.length + 1) Server.MAX_REQUESTS_PER_WINDOW,
                t0 + RATE_LIMIT_WINDOW⟩) :=
  ⟨rlRun_fresh_window pushToJira_inWindowStep (by decide) ip t0 ts h,
   rlRun_fresh_window generateTicket_inWindowStep (by decide) ip t0 ts h,
   rlRun_fresh_window server_inWindowStep (by decide) ip t0 ts h⟩

/-- Witness for C1: eleven requests from one caller inside one minute on the
Vercel push proxy; the eleventh is the only rejected one and the count
sticks at 10. -/
theorem rate_limiter_threshold_c1_witness :
    (rlRun PushToJira.rateCheck []
        (((0 : Nat) :: [1, 2, 3, 4, 5, 6, 7, 8, 9, 10]).map
          (fun t => ("203.0.113.7", t)))).2
      = (List.range 11).map
          (fun n => if n + 1 ≤ PushToJira.MAX_REQUESTS_PER_WINDOW then none
                    else some tooManyRequests)
    ∧ rlLookup (rlRun PushToJira.rateCheck []
        (((0 : Nat) :: [1, 2, 3, 4, 5, 6, 7, 8, 9, 10]).map
          (fun t => ("203.0.113.7", t)))).1 "203.0.113.7"
      = some ⟨min 11 PushToJira.MAX_REQUESTS_PER_WINDOW, 0 + RATE_LIMIT_WINDOW⟩ :=
  (rate_limiter_threshold_c1 "203.0.113.7" 0 [1, 2, 3, 4, 5, 6, 7, 8, 9, 10]
    (by decide)).1

/-- **C7** (counterexample): in the local Express server a request arriving
at a time exactly equal to the stored window-end timestamp does NOT start a
fresh window; it is counted against the old window (count goes to 2, the old
window-end is kept). -/
theorem rate_window_boundary_c7_counterexample :
    rlLookup (rlRun Server.rateLimit []
        [("203.0.113.5", 0), ("203.0.113.5", 60000)]).1 "203.0.113.5"
      = some ⟨2, 60000⟩
    ∧ (some (⟨2, 60000⟩ : RLEntry)
        ≠ some ⟨1, 60000 + RATE_LIMIT_WINDOW⟩) := by
  constructor
  · decide
  · decide

/-- **C7** (amended): in the two serverless handlers a request at a time
exactly equal to the stored window-end starts a fresh window with count 1;
in the local Express server the boundary instant still belongs to the old
window (the entry is incremented below the threshold and rejected at it),
and a fresh window starts only strictly after the stored window-end. -/
theorem rate_window_boundary_c7 :
    (∀ (m : RLMap) (ip : String) (now c : Nat),
        rlLookup m ip = some ⟨c, now⟩ →
        PushToJira.rateCheck m ip now
          = (rlSet m ip ⟨1, now + RATE_LIMIT_WINDOW⟩, none))
    ∧ (∀ (m : RLMap) (ip : String) (now c : Nat),
        rlLookup m ip = some ⟨c, now⟩ →
        GenerateTicket.rateCheck m ip now
          = (rlSet m ip ⟨1, now + RATE_LIMIT_WINDOW⟩, none))
    ∧ (∀ (m : RLMap) (ip : String) (now c : Nat),
        rlLookup m ip = some ⟨c, now⟩ →
        Server.rateLimit m ip now
          = if Server.MAX_REQUESTS_PER_WINDOW ≤ c then (m, some tooManyRequests)
            else (rlSet m ip ⟨c + 1, now⟩, none)) := by
  refine ⟨?_, ?_, ?_⟩
  · intro m ip now c hm
    simp [PushToJira.rateCheck, hm]
  · intro m ip now c hm
    simp [GenerateTicket.rateCheck, hm]
  · intro m ip now c hm
    simp [Server.rateLimit, hm]

/-- Witness for C7's amended statement at a concrete boundary instant. -/
theorem rate_window_boundary_c7_witness :
    PushToJira.rateCheck [("a", ⟨3, 70000⟩)] "a" 70000
      = (rlSet [("a", ⟨3, 70000⟩)] "a" ⟨1, 70000 + RATE_LIMIT_WINDOW⟩, none)
    ∧ GenerateTicket.rateCheck [("a", ⟨3, 70000⟩)] "a" 70000
      = (rlSet [("a", ⟨3, 70000⟩)] "a" ⟨1, 70000 + RATE_LIMIT_WINDOW⟩, none)
    ∧ Server.rateLimit [("a", ⟨3, 70000⟩)] "a" 70000
      = (if Server.MAX_REQUESTS_PER_WINDOW ≤ 3
          then ([("a", ⟨3, 70000⟩)], some tooManyRequests)
          else (rlSet [("a", ⟨3, 70000⟩)] "a" ⟨3 + 1, 70000⟩, none)) :=
  ⟨rate_window_boundary_c7.1 [("a", ⟨3, 70000⟩)] "a" 70000 3 (by decide),
   rate_window_boundary_c7.2.1 [("a", ⟨3, 70000⟩)] "a" 70000 3 (by decide),
   rate_window_boundary_c7.2.2 [("a", ⟨3, 70000⟩)] "a" 70000 3 (by decide)⟩

/-! ## C8: counts never exceed the threshold -/

theorem allCountsLe_rlSet {m : RLMap} {maxReq : Nat} (h : AllCountsLe m maxReq)
    (ip : String) (e : RLEntry) (he : e.count ≤ maxReq) :
    AllCountsLe (rlSet m ip e) maxReq := by
  intro p hp
  rcases mem_rlSet _ _ _ _ hp with h1 | h1
  · rw [h1]; exact he
  · exact h p h1

theorem pushToJira_preserves_counts (m : RLMap) (ip : String) (now : Nat)
    (h : AllCountsLe m PushToJira.MAX_REQUESTS_PER_WINDOW) :
    AllCountsLe (PushToJira.rateCheck m ip now).1 PushToJira.MAX_REQUESTS_PER_WINDOW := by
  unfold PushToJira.rateCheck
  cases hm : rlLookup m ip with
  | none => exact allCountsLe_rlSet h ip _ (by show (1 : Nat) ≤ _; simp [PushToJira.MAX_REQUESTS_PER_WINDOW])
  | some limit =>
    by_cases h1 : now < limit.resetTime
    · by_cases h2 : PushToJira.MAX_REQUESTS_PER_WINDOW ≤ limit.count
      · simpa [h1, h2] using h
      · simp only [if_pos h1, if_neg h2]
        exact allCountsLe_rlSet h ip _ (by show limit.count + 1 ≤ _; omega)
    · simp only [if_neg h1]
      exact allCountsLe_rlSet h ip _ (by show (1 : Nat) ≤ _; simp [PushToJira.MAX_REQUESTS_PER_WINDOW])

theorem generateTicket_preserves_counts (m : RLMap) (ip : String) (now : Nat)
    (h : AllCountsLe m GenerateTicket.MAX_REQUESTS_PER_WINDOW) :
    AllCountsLe (GenerateTicket.rateCheck m ip now).1
      GenerateTicket.MAX_REQUESTS_PER_WINDOW := by
  unfold GenerateTicket.rateCheck
  cases hm : rlLookup m ip with
  | none => exact allCountsLe_rlSet h ip _ (by show (1 : Nat) ≤ _; simp [GenerateTicket.MAX_REQUESTS_PER_WINDOW])
  | some limit =>
    by_cases h1 : now < limit.resetTime
    · by_cases h2 : GenerateTicket.MAX_REQUESTS_PER_WINDOW ≤ limit.count
      · simpa [h1, h2] using h
      · simp only [if_pos h1, if_neg h2]
        exact allCountsLe_rlSet h ip _ (by show limit.count + 1 ≤ _; omega)
    · simp only [if_neg h1]
      exact allCountsLe_rlSet h ip _ (by show (1 : Nat) ≤ _; simp [GenerateTicket.MAX_REQUESTS_PER_WINDOW])

theorem server_preserves_counts (m : RLMap) (ip : String) (now : Nat)
    (h : AllCountsLe m Server.MAX_REQUESTS_PER_WINDOW) :
    AllCountsLe (Server.rateLimit m ip now).1 Server.MAX_REQUESTS_PER_WINDOW := by
  unfold Server.rateLimit
  cases hm : rlLookup m ip with
  | none => exact allCountsLe_rlSet h ip _ (by show (1 : Nat) ≤ _; simp [Server.MAX_REQUESTS_PER_WINDOW])
  | some limit =>
    by_cases h1 : limit.resetTime < now
    · simp only [if_pos h1]
      exact allCountsLe_rlSet h ip _ (by show (1 : Nat) ≤ _; simp [Server.MAX_REQUESTS_PER_WINDOW])
    · by_cases h2 : Server.MAX_REQUESTS_PER_WINDOW ≤ limit.count
      · simpa [h1, h2] using h
      · simp only [if_neg h1, if_neg h2]
        exact allCountsLe_rlSet h ip _ (by show limit.count + 1 ≤ _; omega)

theorem rlRun_allCountsLe {step : RLMap → String → Nat → RLMap × Option HttpResp}
    {maxReq : Nat}
    (hpres : ∀ m ip now, AllCountsLe m maxReq → AllCountsLe (step m ip now).1 maxReq) :
    ∀ (reqs : List (String × Nat)) (m : RLMap),
      AllCountsLe m maxReq → AllCountsLe (rlRun step m reqs).1 maxReq := by
  intro reqs
  induction reqs with
  | nil => intro m h; simpa [rlRun] using h
  | cons q rs ih =>
    intro m h
    obtain ⟨ip, t⟩ := q
    simp only [rlRun]
    exact ih _ (hpres m ip t h)

theorem pushToJira_deny_unchanged (m : RLMap) (ip : String) (now : Nat)
    (resp : HttpResp) (h : (PushToJira.rateCheck m ip now).2 = some resp) :
    (PushToJira.rateCheck m ip now).1 = m := by
  unfold PushToJira.rateCheck at h ⊢
  cases hm : rlLookup m ip with
  | none => simp [hm] at h
  | some limit =>
    by_cases h1 : now < limit.resetTime
    · by_cases h2 : PushToJira.MAX_REQUESTS_PER_WINDOW ≤ limit.count
      · simp [hm, h1, h2]
      · simp [hm, h1, h2] at h
    · simp [hm, h1] at h

theorem generateTicket_deny_unchanged (m : RLMap) (ip : String) (now : Nat)
    (resp : HttpResp) (h : (GenerateTicket.rateCheck m ip now).2 = some resp) :
    (GenerateTicket.rateCheck m ip now).1 = m := by
  unfold GenerateTicket.rateCheck at h ⊢
  cases hm : rlLookup m ip with
  | none => simp [hm] at h
  | some limit =>
    by_cases h1 : now < limit.resetTime
    · by_cases h2 : GenerateTicket.MAX_REQUESTS_PER_WINDOW ≤ limit.count
      · simp [hm, h1, h2]
      · simp [hm, h1, h2] at h
    · simp [hm, h1] at h

theorem server_deny_unchanged (m : RLMap) (ip : String) (now : Nat)
    (resp : HttpResp) (h : (Server.rateLimit m ip now).2 = some resp) :
    (Server.rateLimit m ip now).1 = m := by
  unfold Server.rateLimit at h ⊢
  cases hm : rlLookup m ip with
  | none => simp [hm] at h
  | some limit =>
    by_cases h1 : limit.resetTime < now
    · simp [hm, h1] at h
    · by_cases h2 : Server.MAX_REQUESTS_PER_WINDOW ≤ limit.count
      · simp [hm, h1, h2]
      · simp [hm, h1, h2] at h

/-- **C8**: after any sequence of requests from the empty map, every stored
rate-limit entry's count is at most the endpoint's window maximum (10, 15,
20 respectively), and a rejected request leaves the map unchanged (so a
denial never increments the stored count). -/
theorem rate_limit_count_invariant_c8 :
    ((∀ reqs : List (String × Nat),
        AllCountsLe (rlRun PushToJira.rateCheck [] reqs).1
          PushToJira.MAX_REQUESTS_PER_WINDOW)
      ∧ (∀ reqs : List (String × Nat),
        AllCountsLe (rlRun GenerateTicket.rateCheck [] reqs).1
          GenerateTicket.MAX_REQUESTS_PER_WINDOW)
      ∧ (∀ reqs : List (String × Nat),
        AllCountsLe (rlRun Server.rateLimit [] reqs).1
          Server.MAX_REQUESTS_PER_WINDOW))
    ∧ ((∀ (m : RLMap) (ip : String) (now : Nat) (resp : HttpResp),
          (PushToJira.rateCheck m ip now).2 = some resp →
          (PushToJira.rateCheck m ip now).1 = m)
      ∧ (∀ (m : RLMap) (ip : String) (now : Nat) (resp : HttpResp),
          (GenerateTicket.rateCheck m ip now).2 = some resp →
          (GenerateTicket.rateCheck m ip now).1 = m)
      ∧ (∀ (m : RLMap) (ip : String) (now : Nat) (resp : HttpResp),
          (Server.rateLimit m ip now).2 = some resp →
          (Server.rateLimit m ip now).1 = m)) := by
  constructor
  · refine ⟨?_, ?_, ?_⟩
    · intro reqs
      exact rlRun_allCountsLe pushToJira_preserves_counts reqs []
        (fun p hp => absurd hp (List.not_mem_nil p))
    · intro reqs
      exact rlRun_allCountsLe generateTicket_preserves_counts reqs []
        (fun p hp => absurd hp (List.not_mem_nil p))
    · intro reqs
      exact rlRun_allCountsLe server_preserves_counts reqs []
        (fun p hp => absurd hp (List.not_mem_nil p))
  · exact ⟨pushToJira_deny_unchanged, generateTicket_deny_unchanged,
      server_deny_unchanged⟩

/-- Witness for C8: a concrete over-the-limit run on the Vercel proxy keeps
the stored count at the bound, and a concrete denied request leaves the map
untouched. -/
theorem rate_limit_count_invariant_c8_witness :
    ("b", (⟨2, 60000⟩ : RLEntry)).2.count ≤ PushToJira.MAX_REQUESTS_PER_WINDOW
    ∧ (PushToJira.rateCheck [("b", ⟨10, 60000⟩)] "b" 5).1 = [("b", ⟨10, 60000⟩)] :=
  ⟨(rate_limit_count_invariant_c8.1.1 [("b", 0), ("b", 1)]) ("b", ⟨2, 60000⟩)
      (by decide),
   rate_limit_count_invariant_c8.2.1 [("b", ⟨10, 60000⟩)] "b" 5 tooManyRequests
      (by decide)⟩

/-! ## URL validator lemmas -/

theorem toList_strAppend (a b : String) : (a ++ b).toList = a.toList ++ b.toList := by
  cases a
  cases b
  rfl

theorem toList_strMk (l : List Char) : (String.mk l).toList = l := rfl

theorem takeWhile_eq_self_of_all {p : Char → Bool} {l : List Char}
    (h : ∀ x ∈ l, p x = true) : l.takeWhile p = l :=
  List.takeWhile_eq_self_iff.mpr h

theorem map_id_of_all {f : Char → Char} {l : List Char}
    (h : ∀ x ∈ l, f x = x) : l.map f = l := by
  induction l with
  | nil => rfl
  | cons c cs ih =>
    simp only [List.map_cons]
    rw [h c (by simp), ih (fun x hx => h x (by simp [hx]))]

theorem beginsWith_append_self (p t : List Char) : beginsWith p (p ++ t) = true := by
  induction p with
  | nil => rfl
  | cons c cs ih => simp [beginsWith, ih]

theorem afterAt_eq_self {l : List Char} (h : ('@' : Char) ∉ l) : afterAt l = l := by
  cases l with
  | nil => rfl
  | cons c cs =>
    have h1 : ¬(c = '@' ∨ ('@' : Char) ∈ cs) := by
      intro hc
      rcases hc with hc | hc
      · exact h (by simp [hc])
      · exact h (by simp [hc])
    simp [afterAt, h1]

theorem subdomainChar_cases {c : Char} (h : subdomainChar c = true) :
    ('a' ≤ c ∧ c ≤ 'z') ∨ ('0' ≤ c ∧ c ≤ '9') ∨ c = '-' := by
  have h1 := h
  simp only [subdomainChar, Bool.or_eq_true, Bool.and_eq_true,
    decide_eq_true_eq] at h1
  tauto

theorem subdomainChar_ne {c x : Char} (h : subdomainChar c = true)
    (hx : subdomainChar x = false) : ¬(c = x) := by
  intro he
  rw [he, hx] at h
  exact Bool.noConfusion h

theorem lowerChar_subdomain {c : Char} (h : subdomainChar c = true) :
    lowerChar c = c := by
  apply if_neg
  intro hc
  rcases subdomainChar_cases h with h1 | h1 | h1
  · exact absurd (le_trans h1.1 hc.2) (by decide)
  · exact absurd (le_trans hc.1 h1.2) (by decide)
  · rw [h1] at hc
    exact absurd hc.1 (by decide)

theorem takeScheme_https (l : List Char) :
    takeScheme ('h' :: 't' :: 't' :: 'p' :: 's' :: ':' :: l)
      = some (['h', 't', 't', 'p', 's'], l) := rfl

theorem parseURL_https_toList (s : String) (l : List Char)
    (h : s.toList = 'h' :: 't' :: 't' :: 'p' :: 's' :: ':' :: l) :
    parseURL s = parseAuthority ['h', 't', 't', 'p', 's'] l := by
  unfold parseURL
  rw [h, takeScheme_https]
  rfl

theorem validateJiraUrl_accepts {url : String} {u : ParsedURL}
    (hp : parseURL url = some u) (h1 : u.protocol = "https:")
    (h2 : endsWithStr u.hostname ".atlassian.net" = true) :
    validateJiraUrl url = ⟨true, none⟩ := by
  unfold validateJiraUrl
  rw [hp]
  simp [h1, h2]

theorem subdomain_not_hostStop {c : Char} (h : subdomainChar c = true) :
    hostStopChar c = false := by
  cases hs : hostStopChar c
  · rfl
  · exfalso
    simp only [hostStopChar, Bool.or_eq_true, decide_eq_true_eq] at hs
    rcases hs with (hs | hs) | hs
    · exact subdomainChar_ne h (by decide) hs
    · exact subdomainChar_ne h (by decide) hs
    · exact subdomainChar_ne h (by decide) hs

/-- **C2**: the URL validator accepts iff the URL parses with protocol
exactly `https:` and a hostname ending in `.atlassian.net`; the three
rejection reasons distinguish an unparseable URL, a wrong scheme, and a
wrong host. -/
theorem url_validator_c2 (url : String) :
    ((validateJiraUrl url).valid = true ↔
      ∃ u, parseURL url = some u ∧ u.protocol = "https:"
        ∧ endsWithStr u.hostname ".atlassian.net" = true)
    ∧ (parseURL url = none →
        validateJiraUrl url = ⟨false, some "Invalid Jira URL format"⟩)
    ∧ (∀ u, parseURL url = some u → ¬(u.protocol = "https:") →
        validateJiraUrl url = ⟨false, some "Jira URL must use HTTPS"⟩)
    ∧ (∀ u, parseURL url = some u → u.protocol = "https:" →
        endsWithStr u.hostname ".atlassian.net" = false →
        validateJiraUrl url
          = ⟨false, some "Only Atlassian-hosted Jira instances are allowed"⟩) := by
  refine ⟨?_, ?_, ?_, ?_⟩
  · unfold validateJiraUrl
    cases hp : parseURL url with
    | none => simp
    | some u =>
      by_cases h1 : u.protocol = "https:"
      · by_cases h2 : endsWithStr u.hostname ".atlassian.net" = true
        · simp [h1, h2]
        · simp [h1, h2]
      · simp [h1]
  · intro h
    unfold validateJiraUrl
    rw [h]
  · intro u hu h1
    unfold validateJiraUrl
    rw [hu]
    simp [h1]
  · intro u hu h1 h2
    unfold validateJiraUrl
    rw [hu]
    simp [h1, h2]

/-- Witness for C2 at concrete URLs: wrong scheme, wrong host, unparseable,
and an accepted one. -/
theorem url_validator_c2_witness :
    validateJiraUrl "http://foo.atlassian.net"
      = ⟨false, some "Jira URL must use HTTPS"⟩
    ∧ validateJiraUrl "https://evil.com"
      = ⟨false, some "Only Atlassian-hosted Jira instances are allowed"⟩
    ∧ validateJiraUrl "not a url"
      = ⟨false, some "Invalid Jira URL format"⟩
    ∧ (validateJiraUrl "https://foo.atlassian.net").valid = true :=
  ⟨(url_validator_c2 "http://foo.atlassian.net").2.2.1
      ⟨"http:", "foo.atlassian.net"⟩ (by decide) (by decide),
   (url_validator_c2 "https://evil.com").2.2.2
      ⟨"https:", "evil.com"⟩ (by decide) (by decide) (by decide),
   (url_validator_c2 "not a url").2.1 (by decide),
   (url_validator_c2 "https://foo.atlassian.net").1.mpr
      ⟨⟨"https:", "foo.atlassian.net"⟩, by decide, by decide, by decide⟩⟩

/-- **C10**: the trusted-suffix check requires a leading dot: every HTTPS
URL whose host is `<label>.atlassian.net` for a nonempty label of plain
host characters is accepted, while the bare apex `https://atlassian.net`
and the look-alike `https://evilatlassian.net` are rejected as wrong
hosts. -/
theorem url_suffix_requires_dot_c10 (lbl : List Char)
    (hne : lbl ≠ []) (hchars : ∀ c ∈ lbl, subdomainChar c = true) :
    validateJiraUrl ("https://" ++ String.mk lbl ++ ".atlassian.net")
      = ⟨true, none⟩
    ∧ validateJiraUrl "https://atlassian.net"
      = ⟨false, some "Only Atlassian-hosted Jira instances are allowed"⟩
    ∧ validateJiraUrl "https://evilatlassian.net"
      = ⟨false, some "Only Atlassian-hosted Jira instances are allowed"⟩ := by
  refine ⟨?_, by decide, by decide⟩
  cases lbl with
  | nil => exact absurd rfl hne
  | cons c0 cs =>
    have hc0 := hchars c0 (by simp)
    have hcs : ∀ c ∈ cs, subdomainChar c = true :=
      fun c hc => hchars c (by simp [hc])
    have htl : ("https://" ++ String.mk (c0 :: cs) ++ ".atlassian.net").toList
        = 'h' :: 't' :: 't' :: 'p' :: 's' :: ':' :: '/' :: '/' ::
          (c0 :: cs ++ ".atlassian.net".toList) := by
      rw [toList_strAppend, toList_strAppend, toList_strMk]
      rfl
    have hsfx : ∀ x ∈ ".atlassian.net".toList, subdomainChar x = true ∨ x = '.' := by
      decide
    have hallgood : ∀ x ∈ c0 :: cs ++ ".atlassian.net".toList,
        subdomainChar x = true ∨ x = '.' := by
      intro x hx
      rcases List.mem_cons.mp hx with hx | hx
      · rw [hx]
        exact Or.inl hc0
      · rcases List.mem_append.mp hx with hx | hx
        · exact Or.inl (hcs x hx)
        · exact hsfx x hx
    have hstop : ∀ x ∈ c0 :: cs ++ ".atlassian.net".toList, (!hostStopChar x) = true := by
      intro x hx
      rcases hallgood x hx with h | h
      · simp [subdomain_not_hostStop h]
      · rw [h]
        decide
    have hnoAt : ('@' : Char) ∉ c0 :: cs ++ ".atlassian.net".toList := by
      intro hx
      rcases hallgood '@' hx with h | h
      · exact absurd h (by decide)
      · exact absurd h (by decide)
    have hnoColon : ∀ x ∈ c0 :: cs ++ ".atlassian.net".toList, (!(x = ':' : Bool)) = true := by
      intro x hx
      rcases hallgood x hx with h | h
      · simp [subdomainChar_ne h (by decide : subdomainChar ':' = false)]
      · rw [h]
        decide
    have hlower : ∀ x ∈ c0 :: cs ++ ".atlassian.net".toList, lowerChar x = x := by
      intro x hx
      rcases hallgood x hx with h | h
      · exact lowerChar_subdomain h
      · rw [h]
        decide
    have hc0slash : ¬(c0 = '/') := subdomainChar_ne hc0 (by decide)
    have hhost : hostOf ('/' :: '/' :: (c0 :: cs ++ ".atlassian.net".toList))
        = c0 :: cs ++ ".atlassian.net".toList := by
      unfold hostOf
      have hdrop : List.dropWhile (fun c => decide (c = '/'))
          ('/' :: '/' :: (c0 :: cs ++ ".atlassian.net".toList))
          = c0 :: cs ++ ".atlassian.net".toList := by
        simp [List.dropWhile_cons, hc0slash]
      rw [hdrop]
      rw [takeWhile_eq_self_of_all hstop, afterAt_eq_self hnoAt,
        takeWhile_eq_self_of_all hnoColon]
    have hparse : parseURL ("https://" ++ String.mk (c0 :: cs) ++ ".atlassian.net")
        = some ⟨"https:", String.mk (c0 :: cs ++ ".atlassian.net".toList)⟩ := by
      rw [parseURL_https_toList _ _ htl]
      unfold parseAuthority
      rw [hhost, map_id_of_all hlower]
      rw [if_neg (by simp)]
      rfl
    have hend : endsWithStr (String.mk (c0 :: cs ++ ".atlassian.net".toList))
        ".atlassian.net" = true := by
      show beginsWith ".atlassian.net".toList.reverse
        (c0 :: cs ++ ".atlassian.net".toList).reverse = true
      have hrev : (c0 :: cs ++ ".atlassian.net".toList).reverse
          = ".atlassian.net".toList.reverse ++ (c0 :: cs).reverse := by
        rw [← List.reverse_append]
      rw [hrev]
      exact beginsWith_append_self _ _
    exact validateJiraUrl_accepts hparse rfl hend

/-- Witness for C10 at the concrete label `anything`. -/
theorem url_suffix_requires_dot_c10_witness :
    validateJiraUrl ("https://" ++ String.mk "anything".toList ++ ".atlassian.net")
      = ⟨true, none⟩
    ∧ validateJiraUrl "https://atlassian.net"
      = ⟨false, some "Only Atlassian-hosted Jira instances are allowed"⟩ :=
  ⟨(url_suffix_requires_dot_c10 "anything".toList (by decide) (by decide)).1,
   (url_suffix_requires_dot_c10 "anything".toList (by decide) (by decide)).2.1⟩

/-! ## Ticket parser lemmas: regex search over the blob -/

theorem scan_of_some {α : Type} {f : List Char → Option α} {s : List Char} {a : α}
    (h : f s = some a) : scan f s = some a := by
  cases s with
  | nil => simpa [scan] using h
  | cons c cs => simp [scan, h]

theorem dropLit_self (l r : List Char) : dropLit? l (l ++ r) = some r := by
  induction l with
  | nil => rfl
  | cons c cs ih => simp [dropLit?, ih]

theorem litThen_none {α : Type} {lit : List Char} {g : List Char → Option α}
    {s : List Char} (h : dropLit? lit s = none) : litThen lit g s = none := by
  unfold litThen
  rw [h]

theorem scan_skip_cons {α : Type} {f : List Char → Option α} {c : Char}
    {X : List Char} (h : f (c :: X) = none) : scan f (c :: X) = scan f X := by
  simp [scan, h]

theorem scan_skip {α : Type} {f : List Char → Option α} {lit u v : List Char}
    (hf : ∀ s, dropLit? lit s = none → f s = none)
    (h : CleanLit lit u v) : scan f (u ++ v) = scan f v := by
  induction u with
  | nil => rfl
  | cons c cs ih =>
    have h0 : f (c :: (cs ++ v)) = none := by
      have := h 0 (by simp)
      simpa using hf _ (by simpa using this)
    have hrest : CleanLit lit cs v := by
      intro i hi
      have := h (i + 1) (by simpa using Nat.succ_lt_succ hi)
      simpa using this
    rw [List.cons_append, scan_skip_cons h0]
    exact ih hrest

theorem cleanLit_append {lit a b v : List Char}
    (h1 : CleanLit lit a (b ++ v)) (h2 : CleanLit lit b v) :
    CleanLit lit (a ++ b) v := by
  intro i hi
  by_cases hc : i < a.length
  · have hd : (a ++ b).drop i ++ v = a.drop i ++ (b ++ v) := by
      rw [List.drop_append_of_le_length (le_of_lt hc), List.append_assoc]
    rw [hd]
    exact h1 i hc
  · push_neg at hc
    have hlen : i - a.length < b.length := by
      simp only [List.length_append] at hi
      omega
    have hd : (a ++ b).drop i ++ v = b.drop (i - a.length) ++ v := by
      rw [List.drop_append_eq_append_drop]
      have : a.drop i = [] := List.drop_eq_nil_of_le hc
      rw [this, List.nil_append]
    rw [hd]
    exact h2 _ hlen

theorem cleanLit_starFree {lit u v : List Char}
    (hl : lit.head? = some '*') (h : ∀ c ∈ u, ¬(c = '*')) :
    CleanLit lit u v := by
  cases lit with
  | nil => simp at hl
  | cons c0 l' =>
    simp only [List.head?_cons, Option.some.injEq] at hl
    subst hl
    intro i hi
    rw [List.drop_eq_getElem_cons hi]
    have hne : ¬('*' = u[i]) := fun he => h u[i] (List.getElem_mem hi) he.symm
    simp [dropLit?, hne]

theorem mm_clash_dropLit {lit s : List Char} (v : List Char)
    (h : mm lit s = .clash) : dropLit? lit (s ++ v) = none := by
  induction s generalizing lit with
  | nil => simp [mm] at h
  | cons d ds ih =>
    cases lit with
    | nil => simp [mm] at h
    | cons c cs =>
      by_cases hc : c = d
      · subst hc
        simp only [mm, if_pos rfl] at h
        simpa [dropLit?] using ih h
      · simp [dropLit?, hc]

theorem mm_leftover_dropLit {lit s l' : List Char} (v : List Char)
    (h : mm lit s = .leftover l') : dropLit? lit (s ++ v) = dropLit? l' v := by
  induction s generalizing lit with
  | nil =>
    simp only [mm] at h
    obtain rfl : lit = l' := by injection h
    rfl
  | cons d ds ih =>
    cases lit with
    | nil => simp [mm] at h
    | cons c cs =>
      by_cases hc : c = d
      · subst hc
        simp only [mm, if_pos rfl] at h
        simpa [dropLit?] using ih h
      · simp [mm, hc] at h

theorem cleanLit_label {lit L v : List Char} {next : Char}
    (h : labelClear lit L next = true) : CleanLit lit L (next :: v) := by
  intro i hi
  have hall := (List.all_eq_true.mp h) i (List.mem_range.mpr hi)
  cases hm : mm lit (L.drop i) with
  | clash => exact mm_clash_dropLit _ hm
  | inside => simp [hm] at hall
  | leftover l' =>
    cases l' with
    | nil => simp [hm] at hall
    | cons c cs =>
      rw [mm_leftover_dropLit _ hm]
      have hcnext : ¬(c = next) := by simpa [hm] using hall
      simp [dropLit?, hcnext]

/-! ## Ticket parser lemmas: the matchers at the target position -/

theorem wfMidL_starFree : ∀ c ∈ wfMidL, ¬(c = '*') := by decide

theorem takeWhile_append_stop {p : Char → Bool} {xs : List Char} {y : Char}
    (ys : List Char) (h1 : ∀ x ∈ xs, p x = true) (h2 : p y = false) :
    List.takeWhile p (xs ++ y :: ys) = xs := by
  induction xs with
  | nil => simp [List.takeWhile_cons, h2]
  | cons x xs ih =>
    rw [List.cons_append, List.takeWhile_cons_of_pos (h1 x (by simp))]
    rw [ih (fun x hx => h1 x (by simp [hx]))]

theorem afterLastNlInWs_nl {c0 : Char} (cs : List Char) (h : isWs c0 = false) :
    afterLastNlInWs ('\n' :: c0 :: cs) = some (c0 :: cs) := by
  simp [afterLastNlInWs, h, (show isWs '\n' = true by decide)]

theorem takeUntilSep_no {l : List Char} (h : ∀ c ∈ l, ¬(c = '━')) :
    takeUntilSep l = l := by
  induction l with
  | nil => rfl
  | cons c cs ih =>
    have hcond : ¬(c = '\n' ∧ cs.head? = some '━') := by
      rintro ⟨-, hh⟩
      cases cs with
      | nil => simp at hh
      | cons c' cs' =>
        simp only [List.head?_cons, Option.some.injEq] at hh
        exact h c' (by simp) hh
    rw [takeUntilSep, if_neg hcond, ih (fun c hc => h c (by simp [hc]))]

theorem takeUntilSep_append {xs : List Char} (r : List Char)
    (h : ∀ c ∈ xs, ¬(c = '━')) :
    takeUntilSep (xs ++ '\n' :: '━' :: r) = xs := by
  induction xs with
  | nil => rw [List.nil_append, takeUntilSep, if_pos (by simp)]
  | cons c cs ih =>
    have hcond : ¬(c = '\n' ∧ (cs ++ '\n' :: '━' :: r).head? = some '━') := by
      rintro ⟨-, hh⟩
      cases cs with
      | nil => simp at hh
      | cons c' cs' =>
        simp only [List.cons_append, List.head?_cons, Option.some.injEq] at hh
        exact h c' (by simp) hh
    rw [List.cons_append, takeUntilSep, if_neg hcond,
      ih (fun c hc => h c (by simp [hc]))]

theorem dropWhile_head_false {p : Char → Bool} {l : List Char} {c : Char}
    {cs : List Char} (hl : l = c :: cs) (h : p c = false) :
    l.dropWhile p = l := by
  subst hl
  rw [List.dropWhile_cons_of_neg (by simp [h])]

theorem trimWs_keep {l : List Char}
    (h1 : ∃ c cs, l = c :: cs ∧ isWs c = false)
    (h2 : ∃ c cs, l.reverse = c :: cs ∧ isWs c = false) :
    trimWs l = l := by
  obtain ⟨c1, cs1, he1, hc1⟩ := h1
  obtain ⟨c2, cs2, he2, hc2⟩ := h2
  unfold trimWs
  rw [dropWhile_head_false he1 hc1, dropWhile_head_false he2 hc2,
    List.reverse_reverse]

theorem trimWs_body_nl {l : List Char}
    (h1 : ∃ c cs, l = c :: cs ∧ isWs c = false)
    (h2 : ∃ c cs, l.reverse = c :: cs ∧ isWs c = false) :
    trimWs (l ++ ['\n']) = l := by
  obtain ⟨c1, cs1, he1, hc1⟩ := h1
  obtain ⟨c2, cs2, he2, hc2⟩ := h2
  unfold trimWs
  have ha : (l ++ ['\n']).dropWhile isWs = l ++ ['\n'] := by
    rw [he1, List.cons_append,
      List.dropWhile_cons_of_neg (by simp [hc1]), ← List.cons_append, ← he1]
  rw [ha, List.reverse_append]
  have hb : (['\n'].reverse ++ l.reverse).dropWhile isWs = l.reverse := by
    have hnl : isWs '\n' = true := by decide
    simp only [List.reverse_singleton, List.singleton_append]
    rw [List.dropWhile_cons_of_pos (by simpa using hnl),
      dropWhile_head_false he2 hc2]
  rw [hb, List.reverse_reverse]

theorem strMk_toList (s : String) : String.mk s.toList = s := rfl

/-- Skipping one whole leading section (label, separator character, body,
inter-section rule) of the blob during a regex search for `lit`. -/
theorem scan_skip_seg {α : Type} {f : List Char → Option α} {lit : List Char}
    (L : List Char) (c : Char) {b rest : List Char}
    (hf : ∀ s, dropLit? lit s = none → f s = none)
    (hlit : lit.head? = some '*')
    (hlc : labelClear lit L c = true)
    (hc : ¬(c = '*'))
    (hb : ∀ x ∈ b, ¬(x = '*')) :
    scan f (L ++ (c :: (b ++ (wfMidL ++ rest)))) = scan f rest := by
  have hdl : dropLit? lit (c :: (b ++ (wfMidL ++ rest))) = none := by
    cases lit with
    | nil => simp at hlit
    | cons c0 l' =>
      simp only [List.head?_cons, Option.some.injEq] at hlit
      subst hlit
      have hne : ¬('*' = c) := fun h => hc h.symm
      simp [dropLit?, hne]
  rw [scan_skip hf (cleanLit_label hlc)]
  rw [scan_skip_cons (hf _ hdl)]
  rw [scan_skip hf (cleanLit_starFree hlit hb)]
  rw [scan_skip hf (cleanLit_starFree hlit wfMidL_starFree)]

/-- A body-section regex at its own label, bodies separated by the rule:
the group is the body plus the single newline before the blank line. -/
theorem sectionAt_hit {lit b rest : List Char}
    (hb : ∃ c cs, b = c :: cs ∧ isWs c = false)
    (hsep : ∀ c ∈ b, ¬(c = '━')) :
    sectionAt lit (lit ++ ('\n' :: (b ++ (wfMidL ++ rest))))
      = some (b ++ ['\n']) := by
  obtain ⟨b0, bs, rfl, hb0⟩ := hb
  unfold sectionAt litThen
  simp only [dropLit_self, List.cons_append]
  simp only [afterLastNlInWs_nl _ hb0]
  have hnb : ∀ c ∈ (b0 :: bs) ++ ['\n'], ¬(c = '━') := by
    intro c hc
    rcases List.mem_append.mp hc with hc | hc
    · exact hsep c hc
    · simp only [List.mem_singleton] at hc
      subst hc
      decide
  have hsep52 : sepChars = '━' :: List.replicate 51 '━' := rfl
  have hshape : b0 :: (bs ++ (wfMidL ++ rest))
      = ((b0 :: bs) ++ ['\n'])
        ++ '\n' :: '━' :: (List.replicate 51 '━' ++ ('\n' :: '\n' :: rest)) := by
    simp [wfMidL, hsep52, List.append_assoc]
  rw [hshape, takeUntilSep_append _ hnb]
  simp

/-- The last section (`Environment`) runs to the end of the input. -/
theorem sectionAt_hit_end {lit b : List Char}
    (hb : ∃ c cs, b = c :: cs ∧ isWs c = false)
    (hsep : ∀ c ∈ b, ¬(c = '━')) :
    sectionAt lit (lit ++ ('\n' :: b)) = some b := by
  obtain ⟨b0, bs, rfl, hb0⟩ := hb
  unfold sectionAt litThen
  simp only [dropLit_self]
  simp only [afterLastNlInWs_nl _ hb0]
  rw [takeUntilSep_no hsep]

/-- The title regex at its own label: the group is the title text. -/
theorem titleAt_hit {b rest : List Char}
    (hb : ∃ c cs, b = c :: cs ∧ isWs c = false)
    (hnl : ∀ c ∈ b, ¬(c = '\n')) :
    titleAt ("**Title:**".toList ++ (' ' :: (b ++ (wfMidL ++ rest))))
      = some b := by
  obtain ⟨b0, bs, rfl, hb0⟩ := hb
  unfold titleAt litThen
  simp only [dropLit_self]
  have hdw : (' ' :: ((b0 :: bs) ++ (wfMidL ++ rest))).dropWhile isWs
      = b0 :: (bs ++ (wfMidL ++ rest)) := by
    rw [List.dropWhile_cons_of_pos (by decide)]
    rw [List.cons_append, List.dropWhile_cons_of_neg (by simp [hb0])]
  rw [hdw]
  rw [if_neg (by simp)]
  have htw : (b0 :: (bs ++ (wfMidL ++ rest))).takeWhile (fun d => !(d = '\n'))
      = b0 :: bs := by
    have hsh : b0 :: (bs ++ (wfMidL ++ rest))
        = (b0 :: bs) ++ '\n' :: ('\n' :: (sepChars ++ ('\n' :: '\n' :: rest))) := by
      simp [wfMidL, List.append_assoc]
    rw [hsh]
    exact takeWhile_append_stop _ (fun x hx => by simp [hnl x hx]) (by decide)
  rw [htw]

/-- Pattern 1 at its own label: the digit of the `P`-code is recovered. -/
theorem prio1At_hit {dg : Char} (rest : List Char)
    (hdg : dg = '1' ∨ dg = '2' ∨ dg = '3' ∨ dg = '4') :
    prio1At ("**Priority:**".toList ++ (' ' :: (['P', dg] ++ (wfMidL ++ rest))))
      = some dg := by
  unfold prio1At litThen
  simp only [dropLit_self]
  have hdw : (' ' :: (['P', dg] ++ (wfMidL ++ rest))).dropWhile isWs
      = 'P' :: dg :: (wfMidL ++ rest) := by
    rw [List.dropWhile_cons_of_pos (by decide)]
    simp only [List.cons_append, List.singleton_append, List.nil_append]
    rw [List.dropWhile_cons_of_neg (by decide)]
  rw [hdw]
  have hbd : boundaryOk (wfMidL ++ rest) = true := rfl
  simp only [codeAt]
  rw [if_pos ⟨Or.inl trivial, hdg, hbd⟩]

theorem wfBlob_toList (t d st e a i p v : String) :
    (wfBlob t d st e a i p v).toList
      = "**Title:**".toList ++ (' ' :: (t.toList ++ (wfMidL
        ++ ("**Description:**".toList ++ ('\n' :: (d.toList ++ (wfMidL
        ++ ("**Steps to Reproduce:**".toList ++ ('\n' :: (st.toList ++ (wfMidL
        ++ ("**Expected Behaviour:**".toList ++ ('\n' :: (e.toList ++ (wfMidL
        ++ ("**Actual Behaviour:**".toList ++ ('\n' :: (a.toList ++ (wfMidL
        ++ ("**Impact:**".toList ++ ('\n' :: (i.toList ++ (wfMidL
        ++ ("**Priority:**".toList ++ (' ' :: (p.toList ++ (wfMidL
        ++ ("**Environment:**".toList
          ++ ('\n' :: v.toList))))))))))))))))))))))))))))) := by
  have h1 : (" " : String).toList = [' '] := rfl
  have h2 : ("\n" : String).toList = ['\n'] := rfl
  simp only [wfBlob, toList_strAppend, toList_strMk, h1, h2,
    List.append_assoc, List.cons_append, List.singleton_append,
    List.nil_append]

/-- **C3** (amended): the ticket field parser is total and degrades: on a
well-formed labelled blob every body section, the title and the priority
code are recovered exactly (with the priority id given by the fixed map);
on empty input every body section resolves to the empty string while the
missing title resolves to the fixed default `Bug Report` and the priority
to the default `P3`/id `3`; and whenever the five priority patterns all
fail the priority resolves to `P3`/id `3`. -/
theorem ticket_parser_c3 :
    (∀ t d st e a i p v : String,
      WFTitle t → WFBody d → WFBody st → WFBody e → WFBody a → WFBody i →
      WFBody v → (p = "P1" ∨ p = "P2" ∨ p = "P3" ∨ p = "P4") →
      parseTicketForJira (wfBlob t d st e a i p v)
        = ⟨t, d, st, e, a, i, (priorityIdMap p).getD "3", p, v⟩)
    ∧ parseTicketForJira "" = ⟨"Bug Report", "", "", "", "", "", "3", "P3", ""⟩
    ∧ (∀ s : String, extractPriorityDigit s.toList = none →
        (parseTicketForJira s).priorityName = "P3"
        ∧ (parseTicketForJira s).priorityId = "3") := by
  refine ⟨?_, by decide, ?_⟩
  · intro t d st e a i p v ht hd hst he ha hi hv hp
    have htstar : ∀ c ∈ t.toList, ¬(c = '*') := fun c hc => (ht.1.2.2 c hc).1
    have hdstar : ∀ c ∈ d.toList, ¬(c = '*') := fun c hc => (hd.2.2 c hc).1
    have hststar : ∀ c ∈ st.toList, ¬(c = '*') := fun c hc => (hst.2.2 c hc).1
    have hestar : ∀ c ∈ e.toList, ¬(c = '*') := fun c hc => (he.2.2 c hc).1
    have hastar : ∀ c ∈ a.toList, ¬(c = '*') := fun c hc => (ha.2.2 c hc).1
    have histar : ∀ c ∈ i.toList, ¬(c = '*') := fun c hc => (hi.2.2 c hc).1
    have hdsep : ∀ c ∈ d.toList, ¬(c = '━') := fun c hc => (hd.2.2 c hc).2
    have hstsep : ∀ c ∈ st.toList, ¬(c = '━') := fun c hc => (hst.2.2 c hc).2
    have hesep : ∀ c ∈ e.toList, ¬(c = '━') := fun c hc => (he.2.2 c hc).2
    have hasep : ∀ c ∈ a.toList, ¬(c = '━') := fun c hc => (ha.2.2 c hc).2
    have hisep : ∀ c ∈ i.toList, ¬(c = '━') := fun c hc => (hi.2.2 c hc).2
    have hvsep : ∀ c ∈ v.toList, ¬(c = '━') := fun c hc => (hv.2.2 c hc).2
    obtain ⟨dg, hdg, hpl⟩ : ∃ dg, (dg = '1' ∨ dg = '2' ∨ dg = '3' ∨ dg = '4')
        ∧ p.toList = ['P', dg] := by
      rcases hp with rfl | rfl | rfl | rfl
      · exact ⟨'1', Or.inl rfl, rfl⟩
      · exact ⟨'2', Or.inr (Or.inl rfl), rfl⟩
      · exact ⟨'3', Or.inr (Or.inr (Or.inl rfl)), rfl⟩
      · exact ⟨'4', Or.inr (Or.inr (Or.inr rfl)), rfl⟩
    have hpmk : String.mk ['P', dg] = p := by
      rw [← hpl]
      exact strMk_toList p
    have hpstar : ∀ x ∈ p.toList, ¬(x = '*') := by
      rw [hpl]
      intro x hx
      rcases List.mem_cons.mp hx with rfl | hx
      · decide
      · rcases List.mem_cons.mp hx with rfl | hx
        · rcases hdg with rfl | rfl | rfl | rfl <;> decide
        · simp at hx
    have hfD : ∀ s, dropLit? ("**Description:**".toList) s = none →
        sectionAt ("**Description:**".toList) s = none :=
      fun s h => litThen_none h
    have hfS : ∀ s, dropLit? ("**Steps to Reproduce:**".toList) s = none →
        sectionAt ("**Steps to Reproduce:**".toList) s = none :=
      fun s h => litThen_none h
    have hfE : ∀ s, dropLit? ("**Expected Behaviour:**".toList) s = none →
        sectionAt ("**Expected Behaviour:**".toList) s = none :=
      fun s h => litThen_none h
    have hfA : ∀ s, dropLit? ("**Actual Behaviour:**".toList) s = none →
        sectionAt ("**Actual Behaviour:**".toList) s = none :=
      fun s h => litThen_none h
    have hfI : ∀ s, dropLit? ("**Impact:**".toList) s = none →
        sectionAt ("**Impact:**".toList) s = none :=
      fun s h => litThen_none h
    have hfV : ∀ s, dropLit? ("**Environment:**".toList) s = none →
        sectionAt ("**Environment:**".toList) s = none :=
      fun s h => litThen_none h
    have hfP : ∀ s, dropLit? ("**Priority:**".toList) s = none →
        prio1At s = none :=
      fun s h => litThen_none h
    have hprio : extractPriorityDigit (wfBlob t d st e a i p v).toList
        = some dg := by
      have hsc : scan prio1At (wfBlob t d st e a i p v).toList = some dg := by
        rw [wfBlob_toList]
        rw [scan_skip_seg ("**Title:**".toList) ' ' hfP rfl
          (by decide) (by decide) htstar]
        rw [scan_skip_seg ("**Description:**".toList) '\n' hfP rfl
          (by decide) (by decide) hdstar]
        rw [scan_skip_seg ("**Steps to Reproduce:**".toList) '\n' hfP rfl
          (by decide) (by decide) hststar]
        rw [scan_skip_seg ("**Expected Behaviour:**".toList) '\n' hfP rfl
          (by decide) (by decide) hestar]
        rw [scan_skip_seg ("**Actual Behaviour:**".toList) '\n' hfP rfl
          (by decide) (by decide) hastar]
        rw [scan_skip_seg ("**Impact:**".toList) '\n' hfP rfl
          (by decide) (by decide) histar]
        rw [hpl]
        exact scan_of_some (prio1At_hit _ hdg)
      unfold extractPriorityDigit
      rw [hsc]
    simp only [parseTicketForJira, extractSection, TicketFields.mk.injEq]
    refine ⟨?_, ?_, ?_, ?_, ?_, ?_, ?_, ?_, ?_⟩
    · rw [wfBlob_toList]
      rw [scan_of_some (titleAt_hit ht.1.1 ht.2)]
      show String.mk (trimWs t.toList) = t
      rw [trimWs_keep ht.1.1 ht.1.2.1]
      exact strMk_toList t
    · rw [show ("**" ++ "Description" ++ ":**") = "**Description:**" from rfl]
      rw [wfBlob_toList]
      rw [scan_skip_seg ("**Title:**".toList) ' ' hfD rfl
        (by decide) (by decide) htstar]
      rw [scan_of_some (sectionAt_hit hd.1 hdsep)]
      show String.mk (trimWs (d.toList ++ ['\n'])) = d
      rw [trimWs_body_nl hd.1 hd.2.1]
      exact strMk_toList d
    · rw [show ("**" ++ "Steps to Reproduce" ++ ":**")
        = "**Steps to Reproduce:**" from rfl]
      rw [wfBlob_toList]
      rw [scan_skip_seg ("**Title:**".toList) ' ' hfS rfl
        (by decide) (by decide) htstar]
      rw [scan_skip_seg ("**Description:**".toList) '\n' hfS rfl
        (by decide) (by decide) hdstar]
      rw [scan_of_some (sectionAt_hit hst.1 hstsep)]
      show String.mk (trimWs (st.toList ++ ['\n'])) = st
      rw [trimWs_body_nl hst.1 hst.2.1]
      exact strMk_toList st
    · rw [show ("**" ++ "Expected Behaviour" ++ ":**")
        = "**Expected Behaviour:**" from rfl]
      rw [wfBlob_toList]
      rw [scan_skip_seg ("**Title:**".toList) ' ' hfE rfl
        (by decide) (by decide) htstar]
      rw [scan_skip_seg ("**Description:**".toList) '\n' hfE rfl
        (by decide) (by decide) hdstar]
      rw [scan_skip_seg ("**Steps to Reproduce:**".toList) '\n' hfE rfl
        (by decide) (by decide) hststar]
      rw [scan_of_some (sectionAt_hit he.1 hesep)]
      show String.mk (trimWs (e.toList ++ ['\n'])) = e
      rw [trimWs_body_nl he.1 he.2.1]
      exact strMk_toList e
    · rw [show ("**" ++ "Actual Behaviour" ++ ":**")
        = "**Actual Behaviour:**" from rfl]
      rw [wfBlob_toList]
      rw [scan_skip_seg ("**Title:**".toList) ' ' hfA rfl
        (by decide) (by decide) htstar]
      rw [scan_skip_seg ("**Description:**".toList) '\n' hfA rfl
        (by decide) (by decide) hdstar]
      rw [scan_skip_seg ("**Steps to Reproduce:**".toList) '\n' hfA rfl
        (by decide) (by decide) hststar]
      rw [scan_skip_seg ("**Expected Behaviour:**".toList) '\n' hfA rfl
        (by decide) (by decide) hestar]
      rw [scan_of_some (sectionAt_hit ha.1 hasep)]
      show String.mk (trimWs (a.toList ++ ['\n'])) = a
      rw [trimWs_body_nl ha.1 ha.2.1]
      exact strMk_toList a
    · rw [show ("**" ++ "Impact" ++ ":**") = "**Impact:**" from rfl]
      rw [wfBlob_toList]
      rw [scan_skip_seg ("**Title:**".toList) ' ' hfI rfl
        (by decide) (by decide) htstar]
      rw [scan_skip_seg ("**Description:**".toList) '\n' hfI rfl
        (by decide) (by decide) hdstar]
      rw [scan_skip_seg ("**Steps to Reproduce:**".toList) '\n' hfI rfl
        (by decide) (by decide) hststar]
      rw [scan_skip_seg ("**Expected Behaviour:**".toList) '\n' hfI rfl
        (by decide) (by decide) hestar]
      rw [scan_skip_seg ("**Actual Behaviour:**".toList) '\n' hfI rfl
        (by decide) (by decide) hastar]
      rw [scan_of_some (sectionAt_hit hi.1 hisep)]
      show String.mk (trimWs (i.toList ++ ['\n'])) = i
      rw [trimWs_body_nl hi.1 hi.2.1]
      exact strMk_toList i
    · rw [hprio]
      show (priorityIdMap (String.mk ['P', dg])).getD "3"
        = (priorityIdMap p).getD "3"
      rw [hpmk]
    · rw [hprio]
      show String.mk ['P', dg] = p
      exact hpmk
    · rw [show ("**" ++ "Environment" ++ ":**") = "**Environment:**" from rfl]
      rw [wfBlob_toList]
      rw [scan_skip_seg ("**Title:**".toList) ' ' hfV rfl
        (by decide) (by decide) htstar]
      rw [scan_skip_seg ("**Description:**".toList) '\n' hfV rfl
        (by decide) (by decide) hdstar]
      rw [scan_skip_seg ("**Steps to Reproduce:**".toList) '\n' hfV rfl
        (by decide) (by decide) hststar]
      rw [scan_skip_seg ("**Expected Behaviour:**".toList) '\n' hfV rfl
        (by decide) (by decide) hestar]
      rw [scan_skip_seg ("**Actual Behaviour:**".toList) '\n' hfV rfl
        (by decide) (by decide) hastar]
      rw [scan_skip_seg ("**Impact:**".toList) '\n' hfV rfl
        (by decide) (by decide) histar]
      rw [scan_skip_seg ("**Priority:**".toList) ' ' hfV rfl
        (by decide) (by decide) hpstar]
      rw [scan_of_some (sectionAt_hit_end hv.1 hvsep)]
      show String.mk (trimWs v.toList) = v
      rw [trimWs_keep hv.1 hv.2.1]
      exact strMk_toList v
  · intro s h
    have h' : extractPriorityDigit s.data = none := h
    constructor
    · simp [parseTicketForJira, h, h']
    · simp only [parseTicketForJira, h, priorityIdMap]
      decide

/-- **C3** (counterexample to the claim as stated): on input with the title
section missing, the parser resolves the title to the fixed default string
`Bug Report`, not to the empty string. -/
theorem ticket_parser_c3_counterexample :
    (parseTicketForJira "**Description:**\nhello").title = "Bug Report"
    ∧ ¬((parseTicketForJira "**Description:**\nhello").title = "") := by
  constructor
  · decide
  · decide

/-- Witness for C3's amended statement at a concrete blob, and the default
priority at a concrete signal-free input. -/
theorem ticket_parser_c3_witness :
    parseTicketForJira (wfBlob "T" "d" "s" "e" "a" "i" "P2" "v")
      = ⟨"T", "d", "s", "e", "a", "i",
          (priorityIdMap "P2").getD "3", "P2", "v"⟩
    ∧ (parseTicketForJira "x").priorityName = "P3"
    ∧ (parseTicketForJira "x").priorityId = "3" := by
  have wf : ∀ s : String,
      (∃ c cs, s.toList = c :: cs ∧ isWs c = false) →
      (∃ c cs, s.toList.reverse = c :: cs ∧ isWs c = false) →
      (∀ c ∈ s.toList, ¬(c = '*') ∧ ¬(c = '━')) → WFBody s :=
    fun _ h1 h2 h3 => ⟨h1, h2, h3⟩
  refine ⟨ticket_parser_c3.1 "T" "d" "s" "e" "a" "i" "P2" "v"
      ⟨wf "T" ⟨'T', [], rfl, by decide⟩ ⟨'T', [], rfl, by decide⟩ (by decide),
        by decide⟩
      (wf "d" ⟨'d', [], rfl, by decide⟩ ⟨'d', [], rfl, by decide⟩ (by decide))
      (wf "s" ⟨'s', [], rfl, by decide⟩ ⟨'s', [], rfl, by decide⟩ (by decide))
      (wf "e" ⟨'e', [], rfl, by decide⟩ ⟨'e', [], rfl, by decide⟩ (by decide))
      (wf "a" ⟨'a', [], rfl, by decide⟩ ⟨'a', [], rfl, by decide⟩ (by decide))
      (wf "i" ⟨'i', [], rfl, by decide⟩ ⟨'i', [], rfl, by decide⟩ (by decide))
      (wf "v" ⟨'v', [], rfl, by decide⟩ ⟨'v', [], rfl, by decide⟩ (by decide))
      (Or.inr (Or.inl rfl)), ?_, ?_⟩
  · exact (ticket_parser_c3.2.2 "x" (by decide)).1
  · exact (ticket_parser_c3.2.2 "x" (by decide)).2

/-! ## Priority shape of the parser output -/

theorem codeAt_shape {l : List Char} {d : Char} (h : codeAt l = some d) :
    d = '1' ∨ d = '2' ∨ d = '3' ∨ d = '4' := by
  match l with
  | [] => exact absurd h (by simp [codeAt])
  | [c] => exact absurd h (by simp [codeAt])
  | c :: d' :: rest =>
    simp only [codeAt] at h
    split at h
    next hcond =>
      injection h with h
      subst h
      exact hcond.2.1
    next => exact absurd h (by simp)

theorem scan_some_exists {α : Type} {f : List Char → Option α} {s : List Char}
    {a : α} (h : scan f s = some a) : ∃ u, f u = some a := by
  induction s with
  | nil => exact ⟨[], h⟩
  | cons c cs ih =>
    rw [scan] at h
    cases hf : f (c :: cs) with
    | some r =>
      rw [hf] at h
      simp only [Option.some.injEq] at h
      exact ⟨c :: cs, by rw [hf, h]⟩
    | none =>
      rw [hf] at h
      exact ih h

theorem litThen_some_exists {α : Type} {lit : List Char}
    {g : List Char → Option α} {s : List Char} {a : α}
    (h : litThen lit g s = some a) : ∃ r, g r = some a := by
  unfold litThen at h
  cases hd : dropLit? lit s with
  | none =>
    rw [hd] at h
    exact absurd h (by simp)
  | some rest =>
    rw [hd] at h
    exact ⟨rest, h⟩

theorem litThenCI_some_exists {α : Type} {lit : List Char}
    {g : List Char → Option α} {s : List Char} {a : α}
    (h : litThenCI lit g s = some a) : ∃ r, g r = some a := by
  unfold litThenCI at h
  cases hd : dropLitCI? lit s with
  | none =>
    rw [hd] at h
    exact absurd h (by simp)
  | some rest =>
    rw [hd] at h
    exact ⟨rest, h⟩

theorem prio1At_shape {s : List Char} {d : Char} (h : prio1At s = some d) :
    d = '1' ∨ d = '2' ∨ d = '3' ∨ d = '4' := by
  unfold prio1At at h
  obtain ⟨r, hr⟩ := litThen_some_exists h
  exact codeAt_shape hr

theorem prio2At_shape {s : List Char} {d : Char} (h : prio2At s = some d) :
    d = '1' ∨ d = '2' ∨ d = '3' ∨ d = '4' := by
  unfold prio2At at h
  obtain ⟨r, hr⟩ := litThenCI_some_exists h
  exact codeAt_shape hr

theorem prio3At_shape {s : List Char} {d : Char} (h : prio3At s = some d) :
    d = '1' ∨ d = '2' ∨ d = '3' ∨ d = '4' := by
  unfold prio3At at h
  obtain ⟨r, hr⟩ := litThenCI_some_exists h
  cases r with
  | nil => exact absurd hr (by simp)
  | cons c cs =>
    simp only at hr
    split at hr
    next => exact codeAt_shape hr
    next => exact absurd hr (by simp)

theorem prio4At_shape {s : List Char} {d : Char} (h : prio4At s = some d) :
    d = '1' ∨ d = '2' ∨ d = '3' ∨ d = '4' := by
  unfold prio4At at h
  obtain ⟨r, hr⟩ := litThenCI_some_exists h
  exact codeAt_shape hr

theorem extractPriorityDigit_shape {content : List Char} {d : Char}
    (h : extractPriorityDigit content = some d) :
    d = '1' ∨ d = '2' ∨ d = '3' ∨ d = '4' := by
  unfold extractPriorityDigit at h
  cases h1 : scan prio1At content with
  | some d1 =>
    rw [h1] at h
    simp only [Option.some.injEq] at h
    subst h
    obtain ⟨u, hu⟩ := scan_some_exists h1
    exact prio1At_shape hu
  | none =>
    rw [h1] at h
    simp only at h
    cases h2 : scan prio2At content with
    | some d2 =>
      rw [h2] at h
      simp only [Option.some.injEq] at h
      subst h
      obtain ⟨u, hu⟩ := scan_some_exists h2
      exact prio2At_shape hu
    | none =>
      rw [h2] at h
      simp only at h
      cases h3 : scan prio3At content with
      | some d3 =>
        rw [h3] at h
        simp only [Option.some.injEq] at h
        subst h
        obtain ⟨u, hu⟩ := scan_some_exists h3
        exact prio3At_shape hu
      | none =>
        rw [h3] at h
        simp only at h
        cases h4 : scan prio4At content with
        | some d4 =>
          rw [h4] at h
          simp only [Option.some.injEq] at h
          subst h
          obtain ⟨u, hu⟩ := scan_some_exists h4
          exact prio4At_shape hu
        | none =>
          rw [h4] at h
          simp only at h
          cases h5 : scan prio5Window content with
          | some w =>
            rw [h5] at h
            simp only at h
            obtain ⟨u, hu⟩ := scan_some_exists h
            exact codeAt_shape hu
          | none =>
            rw [h5] at h
            exact absurd h (by simp)

/-- The parser always emits one of the four codes, with the id given by
the mapping table. -/
theorem parseTicket_priority_spec (content : String) :
    ((parseTicketForJira content).priorityName = "P1"
      ∨ (parseTicketForJira content).priorityName = "P2"
      ∨ (parseTicketForJira content).priorityName = "P3"
      ∨ (parseTicketForJira content).priorityName = "P4")
    ∧ priorityIdMap ((parseTicketForJira content).priorityName)
        = some ((parseTicketForJira content).priorityId) := by
  cases hx : extractPriorityDigit content.toList with
  | none =>
    simp only [parseTicketForJira, hx]
    decide
  | some dgc =>
    have hdg := extractPriorityDigit_shape hx
    simp only [parseTicketForJira, hx]
    rcases hdg with rfl | rfl | rfl | rfl <;> decide

/-! ## C4: the issue-creation payload -/

theorem falsyOr_ne (o : Option String) (dflt : String) (hd : ¬(dflt = "")) :
    ¬(falsyOr o dflt = "") := by
  match o with
  | none => exact hd
  | some s =>
    show ¬(if s = "" then dflt else s) = ""
    by_cases hs : s = ""
    · rw [if_pos hs]
      exact hd
    · rw [if_neg hs]
      exact hs

theorem falsyOr_some_ne {s : String} (dflt : String) (h : ¬(s = "")) :
    falsyOr (some s) dflt = s := by
  show (if s = "" then dflt else s) = s
  rw [if_neg h]

theorem buildJiraPayload_priority (fetch : MetaFetch) (pk : String)
    (cf : Option CustomFields) (f : ReqFields) {pn pid : String}
    (hn : f.priorityName = some pn) (hi : f.priorityId = some pid)
    (hpn : ¬(pn = "")) (hpid : ¬(pid = "")) :
    (buildJiraPayload fetch pk f cf).1.priority = ⟨pid, pn⟩ := by
  cases cf with
  | none =>
    show (⟨falsyOr f.priorityId "3", falsyOr f.priorityName "P3"⟩
        : JiraPriorityObj) = _
    rw [hn, hi, falsyOr_some_ne _ hpid, falsyOr_some_ne _ hpn]
  | some c =>
    show (⟨falsyOr f.priorityId "3", falsyOr f.priorityName "P3"⟩
        : JiraPriorityObj) = _
    rw [hn, hi, falsyOr_some_ne _ hpid, falsyOr_some_ne _ hpn]

/-- **C4**: the payload built by the push proxy always has issue type
`Bug` and a priority object with both id and name present (nonempty); when
the fields come from the client parser the priority name is one of the
four codes and its id is exactly the mapped identifier; and the map
`P1↦1, P2↦2, P3↦3, P4↦4` is injective on the four codes (so they
round-trip without loss). -/
theorem jira_payload_c4 :
    (∀ (fetch : MetaFetch) (pk : String) (f : ReqFields)
        (cf : Option CustomFields),
      (buildJiraPayload fetch pk f cf).1.issuetypeName = "Bug"
      ∧ ¬((buildJiraPayload fetch pk f cf).1.priority.id = "")
      ∧ ¬((buildJiraPayload fetch pk f cf).1.priority.name = ""))
    ∧ (∀ (fetch : MetaFetch) (pk : String) (cf : Option CustomFields)
        (content : String),
      ((buildJiraPayload fetch pk (toReq (parseTicketForJira content)) cf).1.priority.name = "P1"
        ∨ (buildJiraPayload fetch pk (toReq (parseTicketForJira content)) cf).1.priority.name = "P2"
        ∨ (buildJiraPayload fetch pk (toReq (parseTicketForJira content)) cf).1.priority.name = "P3"
        ∨ (buildJiraPayload fetch pk (toReq (parseTicketForJira content)) cf).1.priority.name = "P4")
      ∧ priorityIdMap
          ((buildJiraPayload fetch pk (toReq (parseTicketForJira content)) cf).1.priority.name)
        = some ((buildJiraPayload fetch pk (toReq (parseTicketForJira content)) cf).1.priority.id))
    ∧ (priorityIdMap "P1" = some "1" ∧ priorityIdMap "P2" = some "2"
      ∧ priorityIdMap "P3" = some "3" ∧ priorityIdMap "P4" = some "4")
    ∧ (∀ x y : String,
      (x = "P1" ∨ x = "P2" ∨ x = "P3" ∨ x = "P4") →
      (y = "P1" ∨ y = "P2" ∨ y = "P3" ∨ y = "P4") →
      priorityIdMap x = priorityIdMap y → x = y) := by
  refine ⟨?_, ?_, by decide, ?_⟩
  · intro fetch pk f cf
    cases cf with
    | none =>
      exact ⟨rfl, falsyOr_ne _ _ (by decide), falsyOr_ne _ _ (by decide)⟩
    | some c =>
      exact ⟨rfl, falsyOr_ne _ _ (by decide), falsyOr_ne _ _ (by decide)⟩
  · intro fetch pk cf content
    have hps := parseTicket_priority_spec content
    have hne : ¬((parseTicketForJira content).priorityName = "") := by
      rcases hps.1 with h | h | h | h <;> rw [h] <;> decide
    have hidne : ¬((parseTicketForJira content).priorityId = "") := by
      have h2 := hps.2
      rcases hps.1 with h | h | h | h <;> rw [h] at h2
      · have h3 := (show priorityIdMap "P1" = some "1" by decide).symm.trans h2
        injection h3 with h4
        intro he
        rw [← h4] at he
        exact absurd he (by decide)
      · have h3 := (show priorityIdMap "P2" = some "2" by decide).symm.trans h2
        injection h3 with h4
        intro he
        rw [← h4] at he
        exact absurd he (by decide)
      · have h3 := (show priorityIdMap "P3" = some "3" by decide).symm.trans h2
        injection h3 with h4
        intro he
        rw [← h4] at he
        exact absurd he (by decide)
      · have h3 := (show priorityIdMap "P4" = some "4" by decide).symm.trans h2
        injection h3 with h4
        intro he
        rw [← h4] at he
        exact absurd he (by decide)
    have hb := buildJiraPayload_priority fetch pk cf
      (toReq (parseTicketForJira content)) rfl rfl hne hidne
    constructor
    · rw [hb]
      exact hps.1
    · rw [hb]
      exact hps.2
  · intro x y hx hy h
    rcases hx with rfl | rfl | rfl | rfl <;> rcases hy with rfl | rfl | rfl | rfl <;>
      revert h <;> decide

/-- Witness for C4 at a concrete build. -/
theorem jira_payload_c4_witness :
    (buildJiraPayload .failure "PROJ" (toReq (parseTicketForJira "")) none).1.issuetypeName
      = "Bug"
    ∧ priorityIdMap
        (buildJiraPayload .failure "PROJ" (toReq (parseTicketForJira "")) none).1.priority.name
      = some (buildJiraPayload .failure "PROJ" (toReq (parseTicketForJira "")) none).1.priority.id
    ∧ "P2" = "P2" :=
  ⟨(jira_payload_c4.1 .failure "PROJ" (toReq (parseTicketForJira "")) none).1,
   (jira_payload_c4.2.1 .failure "PROJ" none "").2,
   jira_payload_c4.2.2.2 "P2" "P2" (Or.inr (Or.inl rfl)) (Or.inr (Or.inl rfl)) rfl⟩

/-! ## C5: best-effort engineering-team lookup -/

/-- **C5**: when the engineering-team value is present and nonempty after
trimming but the metadata lookup fails or finds no matching option, the
builder still produces the full payload with the team value alone (no
internal identifier), logs the warning (second component `true`), and the
submission proceeds (issue type and summary are in place); nothing aborts
and no exception reaches the caller. -/
theorem team_lookup_best_effort_c5 (fetch : MetaFetch) (pk : String)
    (f : ReqFields) (c : CustomFields) (s : String)
    (hteam : c.engineeringTeam = some s) (hs : ¬(s = ""))
    (htv : ¬(String.mk (trimWs s.toList) = ""))
    (hlookup : getEngineeringTeamId fetch (String.mk (trimWs s.toList)) = none) :
    (buildJiraPayload fetch pk f (some c)).1.customfield_11737
      = some (.valueOnly (String.mk (trimWs s.toList)))
    ∧ (buildJiraPayload fetch pk f (some c)).2 = true
    ∧ (buildJiraPayload fetch pk f (some c)).1.issuetypeName = "Bug"
    ∧ (buildJiraPayload fetch pk f (some c)).1.summary = f.title := by
  have ht1 : truthy (some s) = some s := by
    show (if s = "" then none else some s) = some s
    rw [if_neg hs]
  have het : engineeringTeamField fetch c.engineeringTeam
      = (some (.valueOnly (String.mk (trimWs s.toList))), true) := by
    unfold engineeringTeamField
    rw [hteam, ht1]
    show (if String.mk (trimWs s.toList) = ""
        then ((none : Option CustomFieldVal), false)
        else match getEngineeringTeamId fetch (String.mk (trimWs s.toList)) with
          | some id => (some (.idValue id (String.mk (trimWs s.toList))), false)
          | none => (some (.valueOnly (String.mk (trimWs s.toList))), true)) = _
    rw [if_neg htv, hlookup]
  refine ⟨?_, ?_, rfl, rfl⟩
  · show (engineeringTeamField fetch c.engineeringTeam).1 = _
    rw [het]
  · show (engineeringTeamField fetch c.engineeringTeam).2 = true
    rw [het]

/-- Witness for C5: a metadata response with no options still yields a
value-only team field and the warning. -/
theorem team_lookup_best_effort_c5_witness :
    (buildJiraPayload (.success (some [])) "PROJ"
        (toReq (parseTicketForJira ""))
        (some ⟨some "Prod", some "Line", some "Comp", some "1.0",
          some "Platform"⟩)).1.customfield_11737
      = some (.valueOnly (String.mk (trimWs "Platform".toList)))
    ∧ (buildJiraPayload (.success (some [])) "PROJ"
        (toReq (parseTicketForJira ""))
        (some ⟨some "Prod", some "Line", some "Comp", some "1.0",
          some "Platform"⟩)).2 = true :=
  ⟨(team_lookup_best_effort_c5 (.success (some [])) "PROJ"
      (toReq (parseTicketForJira ""))
      ⟨some "Prod", some "Line", some "Comp", some "1.0", some "Platform"⟩
      "Platform" rfl (by decide) (by decide) (by decide)).1,
   (team_lookup_best_effort_c5 (.success (some [])) "PROJ"
      (toReq (parseTicketForJira ""))
      ⟨some "Prod", some "Line", some "Comp", some "1.0", some "Platform"⟩
      "Platform" rfl (by decide) (by decide) (by decide)).2.1⟩

/-! ## C6: attachment upload isolation -/

theorem runUploads_no413 {uploads : List UploadResult}
    (h : ∀ r ∈ uploads, ¬(r = .httpFail 413)) :
    runUploads uploads = (uploads, none) := by
  induction uploads with
  | nil => rfl
  | cons r rest ih =>
    have hrest := ih (fun x hx => h x (by simp [hx]))
    cases r with
    | ok => simp [runUploads, hrest]
    | exn => simp [runUploads, hrest]
    | httpFail s =>
      have hs : ¬(s = 413) := by
        intro he
        exact h (.httpFail s) (by simp) (by rw [he])
      simp [runUploads, hs, hrest]

theorem runUploads_413 {u : List UploadResult} (w : List UploadResult)
    (h : ∀ r ∈ u, ¬(r = .httpFail 413)) :
    runUploads (u ++ .httpFail 413 :: w)
      = (u ++ [.httpFail 413], some uploadTooLarge) := by
  induction u with
  | nil => simp [runUploads]
  | cons r rest ih =>
    have hrest := ih (fun x hx => h x (by simp [hx]))
    cases r with
    | ok => simp [runUploads, hrest]
    | exn => simp [runUploads, hrest]
    | httpFail s =>
      have hs : ¬(s = 413) := by
        intro he
        exact h (.httpFail s) (by simp) (by rw [he])
      simp [runUploads, hs, hrest]

/-- **C6**: attachments are uploaded one at a time in the list order; when
no upload reports 413, every upload is attempted and the handler still
returns the created issue (failures and thrown errors neither roll back
the issue nor abort the remaining uploads); a 413 upload response stops
immediately and surfaces the distinct too-large 413 error, which the
client maps to its dedicated message, different from the generic one. -/
theorem attachment_isolation_c6 :
    (∀ (key : String) (uploads : List UploadResult),
      (∀ r ∈ uploads, ¬(r = .httpFail 413)) →
      runUploads uploads = (uploads, none)
      ∧ handlerAfterCreate key uploads = .success key)
    ∧ (∀ (key : String) (u w : List UploadResult),
      (∀ r ∈ u, ¬(r = .httpFail 413)) →
      runUploads (u ++ .httpFail 413 :: w)
        = (u ++ [.httpFail 413], some uploadTooLarge)
      ∧ handlerAfterCreate key (u ++ .httpFail 413 :: w)
        = .errorResp uploadTooLarge)
    ∧ (uploadTooLarge.status = 413
      ∧ clientJiraErrorMessage 413
        = "📦 One or more files you uploaded are too large for Jira. Please remove large files (click Clear All or individual X buttons) and then push the ticket again."
      ∧ ¬(clientJiraErrorMessage 413 = clientJiraErrorMessage 500)) := by
  refine ⟨?_, ?_, by decide⟩
  · intro key uploads h
    have hrun := runUploads_no413 h
    refine ⟨hrun, ?_⟩
    unfold handlerAfterCreate
    rw [hrun]
  · intro key u w h
    have hrun := runUploads_413 w h
    refine ⟨hrun, ?_⟩
    unfold handlerAfterCreate
    rw [hrun]

/-- Witness for C6: a non-413 failure and a thrown error do not prevent
the success response; a 413 in the middle stops the loop with the 413
error. -/
theorem attachment_isolation_c6_witness :
    handlerAfterCreate "BUG-7" [.ok, .httpFail 500, .exn, .ok] = .success "BUG-7"
    ∧ handlerAfterCreate "BUG-7" [.ok, .httpFail 413, .ok]
      = .errorResp uploadTooLarge :=
  ⟨(attachment_isolation_c6.1 "BUG-7" [.ok, .httpFail 500, .exn, .ok]
      (by decide)).2,
   (attachment_isolation_c6.2.1 "BUG-7" [.ok] [.ok] (by decide)).2⟩

/-! ## C9: missing API key -/

/-- **C9** (counterexample): the Netlify ticket-generation function with
no API key still handles a request, it returns a per-request 500
configuration error (and even counts the request against the rate limit),
rather than no request ever being handled. -/
theorem api_key_startup_c9_counterexample :
    (generateTicketHandler none [] "203.0.113.9" 0).2
      = .response ⟨500, "Server configuration error: API key not set"⟩
    ∧ (generateTicketHandler none [] "203.0.113.9" 0).1
      = [("203.0.113.9", ⟨1, 60000⟩)] := by
  constructor
  · decide
  · decide

/-- **C9** (amended): only the local Express backend treats a missing (or
empty) `ANTHROPIC_API_KEY` as startup-fatal, exiting before serving any
request; the Netlify serverless function instead checks the key per
request, after rate limiting, and answers a 500 "API key not set" error
without proceeding to the upstream call. -/
theorem api_key_startup_c9 :
    (∀ key : Option String, (key = none ∨ key = some "") →
      serverStartup key = .fatal)
    ∧ (∀ k : String, ¬(k = "") → serverStartup (some k) = .running k)
    ∧ (∀ (key : Option String) (m : RLMap) (ip : String) (now : Nat),
      (key = none ∨ key = some "") →
      (GenerateTicket.rateCheck m ip now).2 = none →
      (generateTicketHandler key m ip now).2
        = .response ⟨500, "Server configuration error: API key not set"⟩) := by
  refine ⟨?_, ?_, ?_⟩
  · intro key h
    rcases h with rfl | rfl
    · rfl
    · simp [serverStartup]
  · intro k hk
    simp [serverStartup, hk]
  · intro key m ip now hkey hrl
    rcases hkey with rfl | rfl <;>
      simp [generateTicketHandler, hrl, netlifyKeyCheck]

/-- Witness for C9's amended statement. -/
theorem api_key_startup_c9_witness :
    serverStartup none = .fatal
    ∧ serverStartup (some "sk-test") = .running "sk-test"
    ∧ (generateTicketHandler (some "") [] "a" 0).2
      = .response ⟨500, "Server configuration error: API key not set"⟩ :=
  ⟨api_key_startup_c9.1 none (Or.inl rfl),
   api_key_startup_c9.2.1 "sk-test" (by decide),
   api_key_startup_c9.2.2 (some "") [] "a" 0 (Or.inr rfl) (by decide)⟩

end BugTicket
